import Mathlib

/-!
# Verification of the subxray link-to-configuration translation layer

This file gives a shallow embedding, in Lean 4, of the two source files of
the `subxray` repository (`xray_parser.py` and `main.py`) and proves, or
refutes, the specification claims about them.

The embedding models Python values by the inductive type `PyVal`, Python
exceptions by the `Except String` monad, and the CPython standard-library
routines the source calls (`base64.b64decode`, `urllib.parse.urlparse`,
`urllib.parse.parse_qs`, `urllib.parse.unquote`, `json.loads`, `int(...)`,
`str.split`, …) by executable Lean functions that follow the behaviour of
CPython 3.11 on the inputs these parsers can meet.  Two documented
restrictions: JSON *number* literals are modelled for the integer case only
(a fraction or exponent is treated as a parse failure), and the `\w`
character class of `re` treats every non-ASCII character as a word
character.
-/

namespace Subxray

/-- Model of a Python runtime value as used by the parsers: strings,
integers, booleans, `None`, lists and (insertion-ordered) dicts with
string keys. -/
inductive PyVal where
  | str (s : String)
  | int (n : Int)
  | bool (b : Bool)
  | none
  | list (xs : List PyVal)
  | dict (fields : List (String × PyVal))
  deriving Repr

/-- A Python dict with string keys, in insertion order. -/
abbrev PyDict := List (String × PyVal)

/-- First-match lookup in an insertion-ordered dict. -/
def lookupStr (d : PyDict) (k : String) : Option PyVal :=
  match d with
  | [] => Option.none
  | (k', v) :: rest => if k' = k then some v else lookupStr rest k

/-- `d[k] = v` on a Python dict: replaces the value in place if the key is
present, appends otherwise. -/
def insertReplace (d : PyDict) (k : String) (v : PyVal) : PyDict :=
  match d with
  | [] => [(k, v)]
  | (k', v') :: rest =>
      if k' = k then (k', v) :: rest else (k', v') :: insertReplace rest k v

/-- Python truthiness of a value. -/
def truthy : PyVal → Bool
  | .str s => !(s = "")
  | .int n => !(n = 0)
  | .bool b => b
  | .none => false
  | .list xs => !xs.isEmpty
  | .dict d => !d.isEmpty

/-- Python `v == s` for a string literal `s`: only a `str` can compare
equal to a `str`. -/
def pyEqStr (v : PyVal) (s : String) : Bool :=
  match v with
  | .str t => t = s
  | _ => false

/-- Python `v in [True, 'true']`, as used for the boolean-ish parameters.
Note that in Python `1 == True`. -/
def pyInTrueTrue (v : PyVal) : Bool :=
  match v with
  | .bool b => b
  | .int n => n = 1
  | .str t => t = "true"
  | _ => false

/-- Python `str(v)` (f-string interpolation).  The container cases are
abbreviated; the code only interpolates values already known to be
strings. -/
def pyStrOf : PyVal → String
  | .str s => s
  | .int n => toString n
  | .bool b => if b then "True" else "False"
  | .none => "None"
  | .list _ => "[...]"
  | .dict _ => "{...}"

/-- Projection to a Lean string, when the value is a Python `str`. -/
def asStr : PyVal → Option String
  | .str s => some s
  | _ => Option.none

/-- Projection to a Lean integer, when the value is a Python `int`. -/
def asInt : PyVal → Option Int
  | .int n => some n
  | _ => Option.none

/-! ## Python `int(...)` on strings -/

/-- The whitespace characters stripped by `int(str)`. -/
def isPySpace (c : Char) : Bool :=
  c = ' ' || c = '\t' || c = '\n' || c = '\x0d' || c = '\x0b' || c = '\x0c'

/-- Digits of a Python integer literal, allowing single underscores
strictly between digits; returns the value. -/
def pyDigits : List Char → Option Nat
  | [] => Option.none
  | c :: rest =>
      if c.isDigit then pyDigitsAcc (c.toNat - '0'.toNat) rest else Option.none
where
  pyDigitsAcc (acc : Nat) : List Char → Option Nat
    | [] => some acc
    | c :: rest =>
        if c.isDigit then pyDigitsAcc (acc * 10 + (c.toNat - '0'.toNat)) rest
        else if c = '_' then
          match rest with
          | c' :: rest' =>
              if c'.isDigit then pyDigitsAcc (acc * 10 + (c'.toNat - '0'.toNat)) rest'
              else Option.none
          | [] => Option.none
        else Option.none

/-- Python `int(s)` for a string `s`: strips whitespace, allows an
optional sign, then decimal digits (ASCII). -/
def pyParseInt (s : String) : Except String Int :=
  let core := (s.data.dropWhile isPySpace).reverse.dropWhile isPySpace |>.reverse
  match core with
  | '+' :: ds =>
      match pyDigits ds with
      | some n => .ok (Int.ofNat n)
      | Option.none => .error "ValueError: invalid literal for int()"
  | '-' :: ds =>
      match pyDigits ds with
      | some n => .ok (-(Int.ofNat n))
      | Option.none => .error "ValueError: invalid literal for int()"
  | ds =>
      match pyDigits ds with
      | some n => .ok (Int.ofNat n)
      | Option.none => .error "ValueError: invalid literal for int()"

/-- Python `int(v)`: identity on ints, 0/1 on bools, decimal parse on
strings; anything else raises. -/
def pyInt (v : PyVal) : Except String Int :=
  match v with
  | .int n => .ok n
  | .bool b => .ok (if b then 1 else 0)
  | .str s => pyParseInt s
  | _ => .error "TypeError: int() argument"

/-! ## `base64.b64decode` / `base64.urlsafe_b64decode`

CPython's `binascii.a2b_base64` in its default non-strict mode: characters
outside the alphabet are skipped, a `=` on a quantum of fewer than two
collected sextets is skipped, and a quantum completed by padding ends the
decode (everything after it is ignored).  A data character arriving while a
second `=` is awaited raises, as does a dangling quantum at end of input. -/

/-- Value of a standard-alphabet base64 character. -/
def b64DigitVal (c : Char) : Option Nat :=
  if 'A' ≤ c ∧ c ≤ 'Z' then some (c.toNat - 'A'.toNat)
  else if 'a' ≤ c ∧ c ≤ 'z' then some (c.toNat - 'a'.toNat + 26)
  else if '0' ≤ c ∧ c ≤ '9' then some (c.toNat - '0'.toNat + 52)
  else if c = '+' then some 62
  else if c = '/' then some 63
  else Option.none

/-- Bytes of a full 4-sextet quantum. -/
def b64Emit4 (a b c d : Nat) : List Nat :=
  [a * 4 + b / 16, (b % 16) * 16 + c / 4, (c % 4) * 64 + d]

/-- The `a2b_base64` scanner.  `q` is the current quantum (at most three
sextets), `pend` records that one `=` has been seen on a 2-sextet
quantum. -/
def a2bGo : List Char → List Nat → Bool → Except String (List Nat)
  | [], _, true => .error "binascii.Error: Incorrect padding"
  | [], [], false => .ok []
  | [], [_], false => .error "binascii.Error: invalid length"
  | [], _ :: _ :: _, false => .error "binascii.Error: Incorrect padding"
  | ch :: rest, q, pend =>
      match b64DigitVal ch with
      | some v =>
          if pend then .error "binascii.Error: Incorrect padding"
          else
            match q with
            | [a, b, c] =>
                match a2bGo rest [] false with
                | .ok tail => .ok (b64Emit4 a b c v ++ tail)
                | .error e => .error e
            | _ => a2bGo rest (q ++ [v]) false
      | Option.none =>
          if ch = '=' then
            match q, pend with
            | [a, b], false => a2bGo rest [a, b] true
            | [a, b], true => .ok [a * 4 + b / 16]
            | [a, b, c], _ => .ok [a * 4 + b / 16, (b % 16) * 16 + c / 4]
            | _, _ => a2bGo rest q pend
          else a2bGo rest q pend

/-- `base64.b64decode` on a `str` argument: the string must be ASCII, then
the non-strict scanner runs. -/
def b64decode (s : String) : Except String (List Nat) :=
  if s.data.all (fun c => c.toNat < 128) then a2bGo s.data [] false
  else .error "ValueError: string argument should contain only ASCII characters"

/-- `base64.urlsafe_b64decode`: translates `-`→`+` and `_`→`/`, then
decodes (so both alphabets are effectively accepted). -/
def urlsafe_b64decode (s : String) : Except String (List Nat) :=
  b64decode ⟨s.data.map (fun c => if c = '-' then '+' else if c = '_' then '/' else c)⟩

/-! ## UTF-8 decoding (`bytes.decode('utf-8')`) -/

/-- Is `b` a UTF-8 continuation byte? -/
def utf8Cont (b : Nat) : Bool := 0x80 ≤ b && b ≤ 0xBF

/-- Admissible second byte for a three-byte sequence led by `b0`
(excludes overlong forms and surrogates). -/
def utf8Cont3 (b0 b1 : Nat) : Bool :=
  if b0 = 0xE0 then 0xA0 ≤ b1 && b1 ≤ 0xBF
  else if b0 = 0xED then 0x80 ≤ b1 && b1 ≤ 0x9F
  else utf8Cont b1

/-- Admissible second byte for a four-byte sequence led by `b0`. -/
def utf8Cont4 (b0 b1 : Nat) : Bool :=
  if b0 = 0xF0 then 0x90 ≤ b1 && b1 ≤ 0xBF
  else if b0 = 0xF4 then 0x80 ≤ b1 && b1 ≤ 0x8F
  else utf8Cont b1

/-- Strict UTF-8 decoding, as `.decode('utf-8')`: rejects invalid leading
bytes, truncated sequences, overlongs and surrogates. -/
def utf8Decode : List Nat → Except String (List Char)
  | [] => .ok []
  | b0 :: rest =>
      if b0 < 0x80 then
        match utf8Decode rest with
        | .ok cs => .ok (Char.ofNat b0 :: cs)
        | .error e => .error e
      else if b0 < 0xC2 then .error "UnicodeDecodeError"
      else if b0 ≤ 0xDF then
        match rest with
        | b1 :: r =>
            if utf8Cont b1 then
              match utf8Decode r with
              | .ok cs => .ok (Char.ofNat ((b0 - 0xC0) * 0x40 + (b1 - 0x80)) :: cs)
              | .error e => .error e
            else .error "UnicodeDecodeError"
        | [] => .error "UnicodeDecodeError"
      else if b0 ≤ 0xEF then
        match rest with
        | b1 :: b2 :: r =>
            if utf8Cont3 b0 b1 && utf8Cont b2 then
              match utf8Decode r with
              | .ok cs =>
                  .ok (Char.ofNat ((b0 - 0xE0) * 0x1000 + (b1 - 0x80) * 0x40 + (b2 - 0x80)) :: cs)
              | .error e => .error e
            else .error "UnicodeDecodeError"
        | _ => .error "UnicodeDecodeError"
      else if b0 ≤ 0xF4 then
        match rest with
        | b1 :: b2 :: b3 :: r =>
            if utf8Cont4 b0 b1 && utf8Cont b2 && utf8Cont b3 then
              match utf8Decode r with
              | .ok cs =>
                  .ok (Char.ofNat ((b0 - 0xF0) * 0x40000 + (b1 - 0x80) * 0x1000 +
                        (b2 - 0x80) * 0x40 + (b3 - 0x80)) :: cs)
              | .error e => .error e
            else .error "UnicodeDecodeError"
        | _ => .error "UnicodeDecodeError"
      else .error "UnicodeDecodeError"

/-- Strict UTF-8 decoding into a `String`. -/
def utf8DecodeStr (bs : List Nat) : Except String String :=
  match utf8Decode bs with
  | .ok cs => .ok ⟨cs⟩
  | .error e => .error e

/-- The U+FFFD replacement character. -/
def fffd : Char := Char.ofNat 0xFFFD

/-- One step of UTF-8 decoding with `errors='replace'`: given a leading
byte and the remaining bytes, yields the decoded character (or U+FFFD for
the maximal invalid subpart) and how many further bytes were consumed. -/
def utf8Step (b0 : Nat) (rest : List Nat) : Char × Nat :=
  if b0 < 0x80 then (Char.ofNat b0, 0)
  else if b0 < 0xC2 then (fffd, 0)
  else if b0 ≤ 0xDF then
    match rest with
    | b1 :: _ =>
        if utf8Cont b1 then (Char.ofNat ((b0 - 0xC0) * 0x40 + (b1 - 0x80)), 1)
        else (fffd, 0)
    | [] => (fffd, 0)
  else if b0 ≤ 0xEF then
    match rest with
    | b1 :: b2 :: _ =>
        if utf8Cont3 b0 b1 then
          if utf8Cont b2 then
            (Char.ofNat ((b0 - 0xE0) * 0x1000 + (b1 - 0x80) * 0x40 + (b2 - 0x80)), 2)
          else (fffd, 1)
        else (fffd, 0)
    | [b1] => if utf8Cont3 b0 b1 then (fffd, 1) else (fffd, 0)
    | [] => (fffd, 0)
  else if b0 ≤ 0xF4 then
    match rest with
    | b1 :: b2 :: b3 :: _ =>
        if utf8Cont4 b0 b1 then
          if utf8Cont b2 then
            if utf8Cont b3 then
              (Char.ofNat ((b0 - 0xF0) * 0x40000 + (b1 - 0x80) * 0x1000 +
                (b2 - 0x80) * 0x40 + (b3 - 0x80)), 3)
            else (fffd, 2)
          else (fffd, 1)
        else (fffd, 0)
    | [b1, b2] =>
        if utf8Cont4 b0 b1 then
          if utf8Cont b2 then (fffd, 2) else (fffd, 1)
        else (fffd, 0)
    | [b1] => if utf8Cont4 b0 b1 then (fffd, 1) else (fffd, 0)
    | [] => (fffd, 0)
  else (fffd, 0)

/-- UTF-8 decoding with `errors='replace'`: an invalid or truncated
sequence becomes a single U+FFFD covering its maximal valid prefix. -/
def utf8DecodeReplace : List Nat → List Char
  | [] => []
  | b0 :: rest =>
      let st := utf8Step b0 rest
      st.1 :: utf8DecodeReplace (rest.drop st.2)
termination_by bs => bs.length
decreasing_by
  simp only [List.length_cons, List.length_drop]
  omega

/-! ## Python string primitives -/

/-- Python `s.startswith(p)`. -/
def pyStartswith (s p : String) : Bool := p.data.isPrefixOf s.data

/-- Python `s[n:]`. -/
def pyDrop (s : String) (n : Nat) : String := ⟨s.data.drop n⟩

/-- Python `s.split(sep)` (full split, `sep` a single character): always
returns at least one piece, keeps empty pieces. -/
def pySplitAllChar (sep : Char) : List Char → List (List Char)
  | [] => [[]]
  | c :: rest =>
      if c = sep then [] :: pySplitAllChar sep rest
      else
        match pySplitAllChar sep rest with
        | [] => [[c]]
        | p :: ps => (c :: p) :: ps

/-- `s.split(sep)` on strings. -/
def pySplitAll (s : String) (sep : Char) : List String :=
  (pySplitAllChar sep s.data).map (fun cs => ⟨cs⟩)

/-- Split at the first occurrence of `sep`; `none` when absent. -/
def splitOnceChar (sep : Char) : List Char → Option (List Char × List Char)
  | [] => Option.none
  | c :: rest =>
      if c = sep then some ([], rest)
      else
        match splitOnceChar sep rest with
        | some (a, b) => some (c :: a, b)
        | Option.none => Option.none

/-- Split at the last occurrence of `sep`; `none` when absent. -/
def rsplitOnceChar (sep : Char) (cs : List Char) : Option (List Char × List Char) :=
  match rsplitOnceChar' sep cs.reverse with
  | some (a, b) => some (b.reverse, a.reverse)
  | Option.none => Option.none
where
  rsplitOnceChar' (sep : Char) : List Char → Option (List Char × List Char)
    | [] => Option.none
    | c :: rest =>
        if c = sep then some ([], rest)
        else
          match rsplitOnceChar' sep rest with
          | some (a, b) => some (c :: a, b)
          | Option.none => Option.none

/-- Python `a, b = s.split(sep, 1)`: fails (ValueError on unpacking) when
`sep` does not occur. -/
def pySplitOnce (s : String) (sep : Char) : Except String (String × String) :=
  match splitOnceChar sep s.data with
  | some (a, b) => .ok (⟨a⟩, ⟨b⟩)
  | Option.none => .error "ValueError: not enough values to unpack"

/-- Python `a, b = s.rsplit(sep, 1)`: fails when `sep` does not occur. -/
def pyRSplitOnce (s : String) (sep : Char) : Except String (String × String) :=
  match rsplitOnceChar sep s.data with
  | some (a, b) => .ok (⟨a⟩, ⟨b⟩)
  | Option.none => .error "ValueError: not enough values to unpack"

/-- Python `s.lower()` (ASCII case folding; the links in scope are
ASCII). -/
def pyLower (s : String) : String := ⟨s.data.map Char.toLower⟩

/-! ## `urllib.parse.unquote` -/

/-- Value of a hexadecimal digit. -/
def hexVal (c : Char) : Option Nat :=
  if '0' ≤ c ∧ c ≤ '9' then some (c.toNat - '0'.toNat)
  else if 'a' ≤ c ∧ c ≤ 'f' then some (c.toNat - 'a'.toNat + 10)
  else if 'A' ≤ c ∧ c ≤ 'F' then some (c.toNat - 'A'.toNat + 10)
  else Option.none

/-- Collect a maximal run of valid `%xx` escapes, returning the bytes and
the remaining characters. -/
def pctRun : List Char → List Nat × List Char
  | '%' :: a :: b :: rest =>
      match hexVal a, hexVal b with
      | some ha, some hb =>
          let r := pctRun rest
          ((ha * 16 + hb) :: r.1, r.2)
      | _, _ => ([], '%' :: a :: b :: rest)
  | cs => ([], cs)

/-- `unquote` worker; the fuel is an upper bound on the number of steps
(each step consumes at least one character). -/
def unquoteGo : Nat → List Char → List Char
  | 0, _ => []
  | _, [] => []
  | fuel + 1, '%' :: rest =>
      match pctRun ('%' :: rest) with
      | ([], _) => '%' :: unquoteGo fuel rest
      | (bs, r) => utf8DecodeReplace bs ++ unquoteGo fuel r
  | fuel + 1, c :: rest => c :: unquoteGo fuel rest

/-- `urllib.parse.unquote`: percent-escapes are decoded bytewise, each
maximal run of escapes UTF-8-decoded with `errors='replace'`; malformed
escapes pass through unchanged. -/
def unquote (s : String) : String := ⟨unquoteGo s.data.length s.data⟩

/-! ## `urllib.parse.urlparse` -/

/-- The split of a URL string as computed by `urlsplit`. -/
structure UrlParts where
  scheme : String
  netloc : String
  path : String
  query : String
  fragment : String
  deriving Repr

/-- Characters allowed in a URL scheme. -/
def schemeChar (c : Char) : Bool :=
  c.isAlphanum || c = '+' || c = '-' || c = '.'

/-- `urllib.parse.urlsplit`: scheme (when well formed, lowercased), then
`//netloc` up to the first `/`, `?` or `#`, then the fragment after the
first `#`, then the query after the first `?`. -/
def urlsplit (url : String) : UrlParts :=
  let (scheme, rest) :=
    match splitOnceChar ':' url.data with
    | some (sch, after) =>
        match sch with
        | [] => ("", url.data)
        | c0 :: _ =>
            if c0.toNat < 128 ∧ c0.isAlpha ∧ sch.all schemeChar then
              (pyLower ⟨sch⟩, after)
            else ("", url.data)
    | Option.none => ("", url.data)
  let (netloc, rest) :=
    match rest with
    | '/' :: '/' :: after =>
        let nl := after.takeWhile (fun c => ¬(c = '/' ∨ c = '?' ∨ c = '#'))
        (nl, after.dropWhile (fun c => ¬(c = '/' ∨ c = '?' ∨ c = '#')))
    | _ => ([], rest)
  let (rest, fragment) :=
    match splitOnceChar '#' rest with
    | some (a, b) => (a, b)
    | Option.none => (rest, [])
  let (path, query) :=
    match splitOnceChar '?' rest with
    | some (a, b) => (a, b)
    | Option.none => (rest, [])
  ⟨scheme, ⟨netloc⟩, ⟨path⟩, ⟨query⟩, ⟨fragment⟩⟩

/-- The `(hostname-part, port-part)` of a netloc, before lowercasing:
the text after the last `@`, split as CPython's `_hostinfo` does
(bracketed IPv6 handled; otherwise first `:`). -/
def urlHostinfo (netloc : String) : List Char × List Char :=
  let hostinfo :=
    match rsplitOnceChar '@' netloc.data with
    | some (_, h) => h
    | Option.none => netloc.data
  match splitOnceChar '[' hostinfo with
  | some (_, bracketed) =>
      match splitOnceChar ']' bracketed with
      | some (host, after) =>
          match splitOnceChar ':' after with
          | some (_, port) => (host, port)
          | Option.none => (host, [])
      | Option.none =>
          match splitOnceChar ':' bracketed with
          | some (_, port) => (bracketed, port)
          | Option.none => (bracketed, [])
  | Option.none =>
      match splitOnceChar ':' hostinfo with
      | some (host, port) => (host, port)
      | Option.none => (hostinfo, [])

/-- `parsed_url.hostname`: `None` when empty, else lowercased. -/
def urlHostname (u : UrlParts) : Option String :=
  let h := (urlHostinfo u.netloc).1
  if h = [] then Option.none else some (pyLower ⟨h⟩)

/-- `parsed_url.port`: `None` when absent, parsed as a base-10 int and
range-checked otherwise; raises `ValueError` on junk or out-of-range. -/
def urlPort (u : UrlParts) : Except String (Option Nat) :=
  let p := (urlHostinfo u.netloc).2
  if p = [] then .ok Option.none
  else
    match pyParseInt ⟨p⟩ with
    | .ok n =>
        if 0 ≤ n ∧ n ≤ 65535 then .ok (some n.toNat)
        else .error "ValueError: Port out of range 0-65535"
    | .error _ => .error "ValueError: Port could not be cast to integer value"

/-- `parsed_url.username`: the userinfo before the last `@`, cut at its
first `:`; `None` when the netloc has no `@`. -/
def urlUsername (u : UrlParts) : Option String :=
  match rsplitOnceChar '@' u.netloc.data with
  | some (userinfo, _) =>
      match splitOnceChar ':' userinfo with
      | some (name, _) => some ⟨name⟩
      | Option.none => some ⟨userinfo⟩
  | Option.none => Option.none

/-! ## `urllib.parse.parse_qs` -/

/-- `unquote_plus`: `+` becomes a space, then percent-decoding. -/
def unquotePlus (s : String) : String :=
  unquote ⟨s.data.map (fun c => if c = '+' then ' ' else c)⟩

/-- `parse_qsl` with default options: split on `&`, drop empty fields,
drop fields without `=` and fields with an empty value, percent-decode
names and values. -/
def parse_qsl (qs : String) : List (String × String) :=
  (pySplitAllChar '&' qs.data).filterMap fun pair =>
    if pair = [] then Option.none
    else
      match splitOnceChar '=' pair with
      | Option.none => Option.none
      | some (n, v) =>
          if v = [] then Option.none
          else some (unquotePlus ⟨n⟩, unquotePlus ⟨v⟩)

/-- Append `v` to the list stored at `k`, creating the entry if needed
(helper for `parse_qs` grouping). -/
def qsInsert (d : PyDict) (k : String) (v : String) : PyDict :=
  match d with
  | [] => [(k, .list [.str v])]
  | (k', .list vs) :: rest =>
      if k' = k then (k', .list (vs ++ [.str v])) :: rest
      else (k', .list vs) :: qsInsert rest k v
  | e :: rest => e :: qsInsert rest k v

/-- `urllib.parse.parse_qs`: groups the pairs of `parse_qsl` into a dict
of lists, preserving first-occurrence key order. -/
def parse_qs (qs : String) : PyDict :=
  (parse_qsl qs).foldl (fun d p => qsInsert d p.1 p.2) []

/-! ## `json.loads`

A recursive-descent parser over characters, with fuel bounded by the input
length (each recursive call consumes at least one character, so the fuel
never runs out on the inputs fed to it).  JSON number literals are
modelled for the integer case only: a fraction or exponent part is treated
as a parse failure.  `\uXXXX` escapes are supported for non-surrogate
code points. -/

/-- JSON whitespace. -/
def jsonWs (c : Char) : Bool := c = ' ' || c = '\t' || c = '\n' || c = '\x0d'

/-- Body of a JSON string after the opening quote: returns the decoded
characters and the input after the closing quote. -/
def jsonStringBody : List Char → Except String (List Char × List Char)
  | [] => .error "json: unterminated string"
  | '"' :: rest => .ok ([], rest)
  | '\x5c' :: rest =>
      (match rest with
       | [] => .error "json: bad escape"
       | e :: rest' =>
         if e = '"' ∨ e = '\x5c' ∨ e = '/' then
           match jsonStringBody rest' with
           | .ok (cs, r) => .ok (e :: cs, r)
           | .error err => .error err
         else if e = 'b' ∨ e = 'f' ∨ e = 'n' ∨ e = 'r' ∨ e = 't' then
           let c := if e = 'b' then '\x08' else if e = 'f' then '\x0c'
                    else if e = 'n' then '\n' else if e = 'r' then '\x0d' else '\t'
           match jsonStringBody rest' with
           | .ok (cs, r) => .ok (c :: cs, r)
           | .error err => .error err
         else if e = 'u' then
           match rest' with
           | h1 :: h2 :: h3 :: h4 :: rest'' =>
               match hexVal h1, hexVal h2, hexVal h3, hexVal h4 with
               | some a, some b, some c, some d =>
                   let n := ((a * 16 + b) * 16 + c) * 16 + d
                   if 0xD800 ≤ n ∧ n ≤ 0xDFFF then
                     .error "json: surrogate escape (not modelled)"
                   else
                     match jsonStringBody rest'' with
                     | .ok (cs, r) => .ok (Char.ofNat n :: cs, r)
                     | .error err => .error err
               | _, _, _, _ => .error "json: invalid \x5cu escape"
           | _ => .error "json: invalid \x5cu escape"
         else .error "json: bad escape")
  | c :: rest =>
      if c.toNat < 0x20 then .error "json: control character in string"
      else
        match jsonStringBody rest with
        | .ok (cs, r) => .ok (c :: cs, r)
        | .error err => .error err

/-- A JSON integer literal: optional `-`, then `0` or a nonzero-led digit
string; a following `.`, `e` or `E` is a modelling failure. -/
def jsonNumber (cs : List Char) : Except String (PyVal × List Char) :=
  let (neg, cs') :=
    match cs with
    | '-' :: rest => (true, rest)
    | _ => (false, cs)
  match cs' with
  | c :: _ =>
      if c.isDigit then
        let ds := cs'.takeWhile Char.isDigit
        let rest := cs'.dropWhile Char.isDigit
        if ds.length > 1 ∧ c = '0' then .error "json: leading zero"
        else
          match rest with
          | e :: _ =>
              if e = '.' ∨ e = 'e' ∨ e = 'E' then
                .error "json: float literal (not modelled)"
              else
                .ok (.int (if neg then -(jsonDigitsVal ds : Int) else jsonDigitsVal ds), rest)
          | [] => .ok (.int (if neg then -(jsonDigitsVal ds : Int) else jsonDigitsVal ds), [])
      else .error "json: expecting value"
  | [] => .error "json: expecting value"
where
  jsonDigitsVal (ds : List Char) : Nat :=
    ds.foldl (fun acc c => acc * 10 + (c.toNat - '0'.toNat)) 0

mutual

/-- Parse one JSON value; returns it and the remaining input. -/
def jsonVal : Nat → List Char → Except String (PyVal × List Char)
  | 0, _ => .error "json: out of fuel"
  | fuel + 1, cs =>
      match cs.dropWhile jsonWs with
      | [] => .error "json: expecting value"
      | '{' :: rest => jsonObjBody fuel rest []
      | '[' :: rest => jsonArrBody fuel rest []
      | '"' :: rest =>
          (match jsonStringBody rest with
           | .ok (s, r) => .ok (.str ⟨s⟩, r)
           | .error e => .error e)
      | 't' :: 'r' :: 'u' :: 'e' :: rest => .ok (.bool true, rest)
      | 'f' :: 'a' :: 'l' :: 's' :: 'e' :: rest => .ok (.bool false, rest)
      | 'n' :: 'u' :: 'l' :: 'l' :: rest => .ok (.none, rest)
      | other => jsonNumber other

/-- Members of a JSON object, called right after `{` or after `,`. -/
def jsonObjBody (fuel : Nat) (cs : List Char) (acc : PyDict) :
    Except String (PyVal × List Char) :=
  match fuel with
  | 0 => .error "json: out of fuel"
  | fuel + 1 =>
      match cs.dropWhile jsonWs with
      | '}' :: rest =>
          if acc.isEmpty then .ok (.dict [], rest)
          else .error "json: expecting property name"
      | '"' :: rest =>
          (match jsonStringBody rest with
           | .error e => .error e
           | .ok (key, r1) =>
               match r1.dropWhile jsonWs with
               | ':' :: r2 =>
                   (match jsonVal fuel r2 with
                    | .error e => .error e
                    | .ok (v, r3) =>
                        let acc' := insertReplace acc ⟨key⟩ v
                        match r3.dropWhile jsonWs with
                        | ',' :: r4 => jsonObjBody fuel r4 acc'
                        | '}' :: r4 => .ok (.dict acc', r4)
                        | _ => .error "json: expecting comma or close brace")
               | _ => .error "json: expecting :")
      | _ => .error "json: expecting property name"

/-- Elements of a JSON array, called right after `[` or after `,`. -/
def jsonArrBody (fuel : Nat) (cs : List Char) (acc : List PyVal) :
    Except String (PyVal × List Char) :=
  match fuel with
  | 0 => .error "json: out of fuel"
  | fuel + 1 =>
      match cs.dropWhile jsonWs with
      | ']' :: rest =>
          if acc.isEmpty then .ok (.list [], rest)
          else .error "json: expecting value"
      | other =>
          match jsonVal fuel other with
          | .error e => .error e
          | .ok (v, r1) =>
              match r1.dropWhile jsonWs with
              | ',' :: r2 => jsonArrBody fuel r2 (acc ++ [v])
              | ']' :: r2 => .ok (.list (acc ++ [v]), r2)
              | _ => .error "json: expecting , or ]"

end

/-- `json.loads`: parse one value, allow trailing whitespace only. -/
def json_loads (s : String) : Except String PyVal :=
  match jsonVal (s.data.length + 1) s.data with
  | .error e => .error e
  | .ok (v, rest) =>
      if rest.dropWhile jsonWs = [] then .ok v else .error "json: extra data"

/-! ## The shared parameter accessor (`get_param`, `xray_parser.py` 22–27) -/

/-- `get_param(params, key, default)`: absent key (or a stored `None`)
yields the default; a stored list yields its first element (raising
`IndexError` when the list is empty, as `val[0]` does); anything else is
returned as is. -/
def get_param (params : PyDict) (key : String) (default : PyVal := PyVal.none) :
    Except String PyVal :=
  match lookupStr params key with
  | Option.none => .ok default
  | some PyVal.none => .ok default
  | some (PyVal.list []) => .error "IndexError: list index out of range"
  | some (PyVal.list (x :: _)) => .ok x
  | some v => .ok v

/-- Python's short-circuiting `a or b` on values: the first operand when
truthy, otherwise the second (not evaluated when the first is truthy). -/
def pyOrE (a : Except String PyVal) (b : Unit → Except String PyVal) :
    Except String PyVal :=
  match a with
  | .error e => .error e
  | .ok va => if truthy va then .ok va else b ()

/-- Python `v.split(',')`: only a `str` has `.split`. -/
def pySplitCommaVal (v : PyVal) : Except String (List String) :=
  match v with
  | .str s => .ok (pySplitAll s ',')
  | _ => .error "AttributeError: split"

/-! ## The Settings Builder (`build_stream_settings`, `xray_parser.py` 29–121)

The builder is split into the four sections of the source function —
network/security resolution, the `sockopt` block, the transport sub-block
and the security sub-block — each following its source lines, and then
composed in source order. -/

/-- Line 34: `network = get_param(params, "net") or get_param(params, "type", "tcp")`. -/
def resolve_network (params : PyDict) : Except String PyVal :=
  pyOrE (get_param params "net") (fun _ => get_param params "type" (.str "tcp"))

/-- Line 35: `security = get_param(params, "tls") or get_param(params, "security", "none")`. -/
def resolve_security (params : PyDict) : Except String PyVal :=
  pyOrE (get_param params "tls") (fun _ => get_param params "security" (.str "none"))

/-- Lines 40–43: the entries of the `sockopt` dict. -/
def sockopt_fields (params : PyDict) : Except String PyDict := do
  let mark ← get_param params "mark"
  let part1 ←
    if truthy mark then do
      let n ← pyInt mark
      pure [("mark", PyVal.int n)]
    else pure ([] : PyDict)
  let tfo ← get_param params "tcpFastOpen"
  let part2 : PyDict :=
    if truthy tfo then [("tcpFastOpen", PyVal.bool (pyInTrueTrue tfo))] else []
  let tproxy ← get_param params "tproxy"
  let part3 : PyDict := if truthy tproxy then [("tproxy", tproxy)] else []
  pure (part1 ++ part2 ++ part3)

/-- Lines 48–95: the transport sub-block selected by `network`; empty for
an unrecognized transport, and for plain `tcp` without HTTP disguise. -/
def transport_fields (params : PyDict) (default_host : PyVal) (network : PyVal) :
    Except String PyDict := do
  if pyEqStr network "tcp" then do
    let headerType ← get_param params "headerType" (.str "none")
    if pyEqStr headerType "http" then do
      let host ← get_param params "host" default_host
      let path ← get_param params "path" (.str "/")
      let pieces ← pySplitCommaVal path
      pure [("tcpSettings", PyVal.dict
        [("header", PyVal.dict
          [("type", PyVal.str "http"),
           ("request", PyVal.dict
             [("path", PyVal.list (pieces.map PyVal.str)),
              ("headers", PyVal.dict [("Host", PyVal.list [host])])])])])]
    else pure ([] : PyDict)
  else if pyEqStr network "kcp" then do
    let mtu ← pyInt (← get_param params "mtu" (.int 1350))
    let tti ← pyInt (← get_param params "tti" (.int 50))
    let up ← pyInt (← get_param params "uplinkCapacity" (.int 5))
    let down ← pyInt (← get_param params "downlinkCapacity" (.int 20))
    let congestion ← get_param params "congestion" (.bool false)
    let readBuf ← pyInt (← get_param params "readBufferSize" (.int 2))
    let writeBuf ← pyInt (← get_param params "writeBufferSize" (.int 2))
    let headerType ← get_param params "headerType" (.str "none")
    let seed ← get_param params "path"
    pure [("kcpSettings", PyVal.dict
      [("mtu", PyVal.int mtu), ("tti", PyVal.int tti),
       ("uplinkCapacity", PyVal.int up), ("downlinkCapacity", PyVal.int down),
       ("congestion", PyVal.bool (pyInTrueTrue congestion)),
       ("readBufferSize", PyVal.int readBuf), ("writeBufferSize", PyVal.int writeBuf),
       ("header", PyVal.dict [("type", headerType)]),
       ("seed", seed)])]
  else if pyEqStr network "ws" then do
    let path ← get_param params "path" (.str "/")
    let host ← get_param params "host" default_host
    pure [("wsSettings", PyVal.dict [("path", path), ("Host", host)])]
  else if pyEqStr network "h2" then do
    let host ← get_param params "host" default_host
    let path ← get_param params "path" (.str "/")
    pure [("httpSettings", PyVal.dict [("host", PyVal.list [host]), ("path", path)])]
  else if pyEqStr network "httpupgrade" then do
    let path ← get_param params "path" (.str "/")
    let host ← get_param params "host" default_host
    pure [("httpUpgradeSettings", PyVal.dict [("path", path), ("host", host)])]
  else if pyEqStr network "quic" then do
    let qsec ← get_param params "quicSecurity" (.str "none")
    let key ← get_param params "key" (.str "")
    let headerType ← get_param params "headerType" (.str "none")
    pure [("quicSettings", PyVal.dict
      [("security", qsec), ("key", key),
       ("header", PyVal.dict [("type", headerType)])])]
  else if pyEqStr network "grpc" then do
    let svc ← get_param params "serviceName" (.str "")
    let mode ← get_param params "mode"
    pure [("grpcSettings", PyVal.dict
      [("serviceName", svc), ("multiMode", PyVal.bool (pyEqStr mode "multi"))])]
  else pure ([] : PyDict)

/-- Lines 99–107: the entries of the `security_settings` dict built in
the `tls`/`xtls` branch (before it is attached under its key). -/
def security_settings_tlsxtls (params : PyDict) (default_host security : PyVal) :
    Except String PyDict := do
  let peer ← get_param params "peer" default_host
  let sni ← get_param params "sni" peer
  let alpn ← get_param params "alpn" (.str "")
  let fp ← get_param params "fp" (.str "")
  let allowIns ← get_param params "allowInsecure" (.bool false)
  let base : PyDict :=
    [("serverName", sni), ("allowInsecure", PyVal.bool (pyInTrueTrue allowIns))]
  let withAlpn ←
    if truthy alpn then do
      let pieces ← pySplitCommaVal alpn
      pure (base ++ [("alpn", PyVal.list (pieces.map PyVal.str))])
    else pure base
  let withFp := if truthy fp then withAlpn ++ [("fingerprint", fp)] else withAlpn
  if pyEqStr security "xtls" then do
    let flow ← get_param params "flow"
    if truthy flow then pure (withFp ++ [("flow", flow)]) else pure withFp
  else pure withFp

/-- Lines 98–119: the security sub-block selected by `security`; empty
for any other value (including `"none"`). -/
def security_fields (params : PyDict) (default_host : PyVal) (security : PyVal) :
    Except String PyDict := do
  if pyEqStr security "tls" || pyEqStr security "xtls" then do
    let o ← security_settings_tlsxtls params default_host security
    pure [(pyStrOf security ++ "Settings", PyVal.dict o)]
  else if pyEqStr security "reality" then do
    let peer ← get_param params "peer" default_host
    let sni ← get_param params "sni" peer
    let fp ← get_param params "fp" (.str "chrome")
    let pbk ← get_param params "pbk" (.str "")
    let sid ← get_param params "sid" (.str "")
    let spx ← get_param params "spx" (.str "/")
    pure [("realitySettings", PyVal.dict
      [("serverName", sni), ("fingerprint", fp), ("publicKey", pbk),
       ("shortId", sid), ("spiderX", spx)])]
  else pure ([] : PyDict)

/-- `build_stream_settings(params, default_host)`: the four sections in
source order, producing the insertion-ordered dict
`{network, security, sockopt?, <transport>Settings?, <security>Settings?}`. -/
def build_stream_settings (params : PyDict) (default_host : PyVal) :
    Except String PyDict := do
  let network ← resolve_network params
  let security ← resolve_security params
  let sockopt ← sockopt_fields params
  let soPart : PyDict := if sockopt.isEmpty then [] else [("sockopt", PyVal.dict sockopt)]
  let transport ← transport_fields params default_host network
  let sec ← security_fields params default_host security
  pure ([("network", network), ("security", security)] ++ soPart ++ transport ++ sec)

/-! ## The Link Decoder (`parse_vmess` / `parse_vless` / `parse_trojan` /
`parse_ss`, `xray_parser.py` 123–227)

Each decoder is modelled as a fallible extraction of the fields (the body
of the `try:` block) followed by the construction of the result dict; the
Python `except Exception: return None` becomes `Except.toOption`. -/

/-- Python `"outbound_" + tag`: raises `TypeError` unless `tag` is a
`str`. -/
def pyAddTag (t : PyVal) : Except String String :=
  match t with
  | .str s => .ok ("outbound_" ++ s)
  | _ => .error "TypeError: can only concatenate str"

/-- Line 126: `json.loads(base64.b64decode(link[8:]).decode('utf-8'))`. -/
def vmess_payload (link : String) : Except String PyVal := do
  let bytes ← b64decode (pyDrop link 8)
  let s ← utf8DecodeStr bytes
  json_loads s

/-- The fields a successful vmess decode extracts. -/
structure VmessParts where
  address : PyVal
  tag : PyVal
  port : Int
  id : PyVal
  aid : Int
  scy : PyVal
  ss : PyDict
  tagS : String

/-- The field extraction of `parse_vmess` (lines 126–137). -/
def vmess_extract (link : String) : Except String VmessParts := do
  let data ← vmess_payload link
  match data with
  | .dict d =>
      let address := (lookupStr d "add").getD (.str "")
      let tag := (lookupStr d "ps").getD address
      let port ← pyInt ((lookupStr d "port").getD (.int 0))
      let idv := (lookupStr d "id").getD (.str "")
      let aid ← pyInt ((lookupStr d "aid").getD (.int 0))
      let scy := (lookupStr d "scy").getD (.str "auto")
      let ss ← build_stream_settings d address
      let tagS ← pyAddTag tag
      pure ⟨address, tag, port, idv, aid, scy, ss, tagS⟩
  | _ => .error "AttributeError: get"

/-- The result dict of `parse_vmess` (lines 129–142). -/
def mkVmessConfig (p : VmessParts) : PyVal :=
  .dict [("outbounds", .list [.dict
    [("protocol", .str "vmess"),
     ("settings", .dict [("vnext", .list [.dict
        [("address", p.address), ("port", .int p.port),
         ("users", .list [.dict
            [("id", p.id), ("alterId", .int p.aid),
             ("security", p.scy), ("level", .int 0)]])]])]),
     ("streamSettings", .dict p.ss),
     ("tag", .str p.tagS)]]),
   ("remarks", p.tag)]

/-- `parse_vmess`: `None` on any exception. -/
def parse_vmess (link : String) : Option PyVal :=
  ((vmess_extract link).map mkVmessConfig).toOption

/-- The fields a successful vless decode extracts. -/
structure VlessParts where
  address : String
  tag : String
  port : Int
  id : String
  encryption : PyVal
  flow : PyVal
  ss : PyDict

/-- The field extraction of `parse_vless` (lines 150–161). -/
def vless_extract (link : String) : Except String VlessParts := do
  let u := urlsplit link
  let params := parse_qs u.query
  let address := (urlHostname u).getD ""
  let tag := if u.fragment = "" then address else unquote u.fragment
  let portO ← urlPort u
  let port : Int := (portO.getD 0 : Nat)
  let id := (urlUsername u).getD ""
  let enc ← get_param params "encryption" (.str "none")
  let flow ← get_param params "flow" (.str "")
  let ss ← build_stream_settings params (.str address)
  pure ⟨address, tag, port, id, enc, flow, ss⟩

/-- The result dict of `parse_vless` (lines 154–166). -/
def mkVlessConfig (p : VlessParts) : PyVal :=
  .dict [("outbounds", .list [.dict
    [("protocol", .str "vless"),
     ("settings", .dict [("vnext", .list [.dict
        [("address", .str p.address), ("port", .int p.port),
         ("users", .list [.dict
            [("id", .str p.id), ("encryption", p.encryption),
             ("flow", p.flow)]])]])]),
     ("streamSettings", .dict p.ss),
     ("tag", .str ("outbound_" ++ p.tag))]]),
   ("remarks", .str p.tag)]

/-- `parse_vless`: `None` on any exception. -/
def parse_vless (link : String) : Option PyVal :=
  ((vless_extract link).map mkVlessConfig).toOption

/-- The fields a successful trojan decode extracts. -/
structure TrojanParts where
  address : String
  tag : String
  port : Int
  password : String
  ss : PyDict

/-- The field extraction of `parse_trojan` (lines 174–185). -/
def trojan_extract (link : String) : Except String TrojanParts := do
  let u := urlsplit link
  let params := parse_qs u.query
  let address := (urlHostname u).getD ""
  let tag := if u.fragment = "" then address else unquote u.fragment
  let portO ← urlPort u
  let port : Int := (portO.getD 0 : Nat)
  let password := (urlUsername u).getD ""
  let ss ← build_stream_settings params (.str address)
  pure ⟨address, tag, port, password, ss⟩

/-- The result dict of `parse_trojan` (lines 179–190). -/
def mkTrojanConfig (p : TrojanParts) : PyVal :=
  .dict [("outbounds", .list [.dict
    [("protocol", .str "trojan"),
     ("settings", .dict [("servers", .list [.dict
        [("address", .str p.address), ("port", .int p.port),
         ("password", .str p.password)]])]),
     ("streamSettings", .dict p.ss),
     ("tag", .str ("outbound_" ++ p.tag))]]),
   ("remarks", .str p.tag)]

/-- `parse_trojan`: `None` on any exception. -/
def parse_trojan (link : String) : Option PyVal :=
  ((trojan_extract link).map mkTrojanConfig).toOption

/-- The fields a successful shadowsocks decode extracts (either branch). -/
structure SsParts where
  method : String
  password : String
  address : PyVal
  port : PyVal
  tag : PyVal

/-- The URI branch of `parse_ss` (lines 198–204): `urlparse` the link,
base64-decode the **whole netloc** (with `"=="` appended), split the
decoded text at its first `:`; host, port and tag come from the URI. -/
def ss_uri_extract (link : String) : Except String SsParts := do
  let u := urlsplit link
  let bytes ← urlsafe_b64decode (u.netloc ++ "==")
  let decoded ← utf8DecodeStr bytes
  let (method, password) ← pySplitOnce decoded ':'
  let address : PyVal :=
    match urlHostname u with
    | some h => .str h
    | Option.none => PyVal.none
  let portO ← urlPort u
  let port : PyVal :=
    match portO with
    | some p => .int (p : Nat)
    | Option.none => PyVal.none
  let tag : PyVal := if u.fragment = "" then address else .str (unquote u.fragment)
  pure ⟨method, password, address, port, tag⟩

/-- The `else` branch of `parse_ss` (lines 205–212, commented
`# SIP002 format ss://BASE64#TAG` in the source): drop five characters,
split on `#`, base64-decode the first piece, split at the first `:`, the
last `@`, and the first `:` of the server part; the port must parse as an
integer. -/
def ss_sip002_extract (link : String) : Except String SsParts := do
  let full_b64 := pySplitAll (pyDrop link 5) '#'
  let tok := full_b64.headD ""
  let bytes ← urlsafe_b64decode (tok ++ "==")
  let decoded ← utf8DecodeStr bytes
  let (method, rest) ← pySplitOnce decoded ':'
  let (password, server) ← pyRSplitOnce rest '@'
  let (address, portStr) ← pySplitOnce server ':'
  let port ← pyParseInt portStr
  let tag : PyVal :=
    match full_b64 with
    | _ :: t :: _ => .str (unquote t)
    | _ => .str address
  pure ⟨method, password, .str address, .int port, tag⟩

/-- The result dict of `parse_ss` (lines 214–224; note: no
`streamSettings`). -/
def mkSsConfig (p : SsParts) (tagS : String) : PyVal :=
  .dict [("outbounds", .list [.dict
    [("protocol", .str "shadowsocks"),
     ("settings", .dict [("servers", .list [.dict
        [("method", .str p.method), ("password", .str p.password),
         ("address", p.address), ("port", p.port)]])]),
     ("tag", .str tagS)]]),
   ("remarks", p.tag)]

/-- The body of `parse_ss`'s `try:` block: branch on
`link.startswith("ss://")`, then build the shared result dict. -/
def parse_ss_core (link : String) : Except String PyVal := do
  let p ← if pyStartswith link "ss://" then ss_uri_extract link else ss_sip002_extract link
  let tagS ← pyAddTag p.tag
  pure (mkSsConfig p tagS)

/-- `parse_ss`: `None` on any exception. -/
def parse_ss (link : String) : Option PyVal := (parse_ss_core link).toOption

/-! ## Persistence (`sanitize_filename` / `save_config_to_file`,
`xray_parser.py` 10–20 and 229–239) -/

/-- The character class `[\s/\\|:<>*?"']` of the first substitution. -/
def sanitizeStrip (c : Char) : Bool :=
  isPySpace c || c = '/' || c = '\x5c' || c = '|' || c = ':' || c = '<' ||
    c = '>' || c = '*' || c = '?' || c.toNat = 34 || c.toNat = 39

/-- Worker for `collapseRuns`; the fuel is an upper bound on the number
of steps (each step consumes at least one character). -/
def collapseRunsGo : Nat → List Char → List Char
  | 0, _ => []
  | _, [] => []
  | fuel + 1, c :: rest =>
      if sanitizeStrip c then '_' :: collapseRunsGo fuel (rest.dropWhile sanitizeStrip)
      else c :: collapseRunsGo fuel rest

/-- Replace each maximal run of stripped characters by a single `_`
(`re.sub(r'[\s/\\|:<>*?"\']+', '_', name)`). -/
def collapseRuns (cs : List Char) : List Char := collapseRunsGo cs.length cs

/-- The `\w` class of `re` (ASCII alphanumerics and `_`; non-ASCII
characters are approximated as word characters). -/
def pyWordChar (c : Char) : Bool := c.isAlphanum || c = '_' || 128 ≤ c.toNat

/-- A character kept by the second substitution
(`re.sub(r'[^\w\-_.]', '', name)`). -/
def keepChar (c : Char) : Bool := pyWordChar c || c = '-' || c = '.'

/-- `sanitize_filename`: falsy input yields the placeholder; a non-`str`
truthy input raises (inside `re.sub`); otherwise the two substitutions
run, falling back to the placeholder when everything was stripped. -/
def sanitize_filename (name : PyVal) : Except String String :=
  if ¬ truthy name then .ok "unnamed_config"
  else
    match name with
    | .str s =>
        let n2 := (collapseRuns s.data).filter keepChar
        .ok (if n2 = [] then "unnamed_config" else ⟨n2⟩)
    | _ => .error "TypeError: expected string or bytes-like object"

/-- Outcome of one `save_config_to_file` call.  The function prints its
diagnostics and returns `None`; the outcome records what happened for the
purposes of the model (the caller in `main` ignores it, as the Python
caller has nothing to inspect). -/
inductive SaveOutcome where
  | invalid
  | wrote (fname : String)
  | ioError (fname : String)
  deriving Repr, DecidableEq

/-- `save_config_to_file(config)`, with the filesystem modelled by a
`writable` oracle on filenames: a falsy config or one without `remarks`
is reported invalid; otherwise the filename is derived from `remarks` and
the write either succeeds or hits the caught `IOError`.  A non-dict
truthy config (never produced by the decoders) would raise in
`"remarks" not in config`. -/
def save_config_to_file (config : PyVal) (writable : String → Bool) :
    Except String SaveOutcome :=
  match config with
  | .dict d =>
      if d.isEmpty then .ok .invalid
      else
        match lookupStr d "remarks" with
        | Option.none => .ok .invalid
        | some remarks => do
            let base ← sanitize_filename remarks
            let fname := base ++ ".json"
            pure (if writable fname then .wrote fname else .ioError fname)
  | other => if ¬ truthy other then .ok .invalid else .error "TypeError: not iterable"

/-! ## The driver loop (`main.py` 113–148) -/

/-- The scheme classification of the dispatch chain in `main` (and in
`xray_parser.main`): literal prefix match, in source order. -/
inductive Scheme where
  | vmess | vless | trojan | ss | unsupported
  deriving Repr, DecidableEq

/-- Lines 120–131: classify a link by its scheme prefix. -/
def classify (link : String) : Scheme :=
  if pyStartswith link "vmess://" then .vmess
  else if pyStartswith link "vless://" then .vless
  else if pyStartswith link "trojan://" then .trojan
  else if pyStartswith link "ss://" then .ss
  else .unsupported

/-- The decode step of one loop iteration: `none` for an unsupported
scheme, otherwise the chosen parser's result. -/
def dispatch_parse (link : String) : Option (Option PyVal) :=
  match classify link with
  | .vmess => some (parse_vmess link)
  | .vless => some (parse_vless link)
  | .trojan => some (parse_trojan link)
  | .ss => some (parse_ss link)
  | .unsupported => Option.none

/-- One iteration of the loop over links (lines 116–138): unsupported
scheme or failed parse count as a failure; a parsed config is saved and
counted as a success **whatever the save outcome** (the save call's
result is not inspected).  The `Bool` says whether `successful_configs`
was incremented. -/
def process_one (link : String) (writable : String → Bool) :
    Except String (Bool × Option SaveOutcome) :=
  match dispatch_parse link with
  | Option.none => .ok (false, Option.none)
  | some Option.none => .ok (false, Option.none)
  | some (some config) =>
      match save_config_to_file config writable with
      | .ok oc => .ok (true, some oc)
      | .error e => .error e

/-- The whole loop: returns
`(successful_configs, failed_configs, per-link save outcomes)`.  An
uncaught exception (impossible for the configs the decoders produce, see
`remarks_is_str`-style lemmas below) would abort the run as in Python. -/
def main_loop : List String → (String → Bool) →
    Except String (Nat × Nat × List (Option SaveOutcome))
  | [], _ => .ok (0, 0, [])
  | l :: ls, w =>
      match process_one l w with
      | .error e => .error e
      | .ok (isSucc, oc) =>
          match main_loop ls w with
          | .error e => .error e
          | .ok (s, f, os) =>
              .ok (if isSucc then s + 1 else s, if isSucc then f else f + 1, oc :: os)

/-! ## Projections and predicates used to state the claims -/

/-- Field of a config dict. -/
def configField (c : PyVal) (k : String) : Option PyVal :=
  match c with
  | .dict d => lookupStr d k
  | _ => Option.none

/-- `outbounds[0]` of a config. -/
def firstOutbound (c : PyVal) : Option PyVal :=
  match configField c "outbounds" with
  | some (.list (ob :: _)) => some ob
  | _ => Option.none

/-- `outbounds[0].settings.servers[0].<k>` of a config. -/
def serverField (c : PyVal) (k : String) : Option PyVal := do
  let ob ← firstOutbound c
  let settings ← configField ob "settings"
  match configField settings "servers" with
  | some (.list (s :: _)) => configField s k
  | _ => Option.none

/-- `outbounds[0].settings.vnext[0].<k>` of a config. -/
def vnextField (c : PyVal) (k : String) : Option PyVal := do
  let ob ← firstOutbound c
  let settings ← configField ob "settings"
  match configField settings "vnext" with
  | some (.list (s :: _)) => configField s k
  | _ => Option.none

/-- A server field of an optional config, projected to a string. -/
def serverStr (c : Option PyVal) (k : String) : Option String :=
  (c.bind (fun cfg => serverField cfg k)).bind asStr

/-- A server field of an optional config, projected to an integer. -/
def serverInt (c : Option PyVal) (k : String) : Option Int :=
  (c.bind (fun cfg => serverField cfg k)).bind asInt

/-- Is a server field of an optional config the Python value `None`? -/
def serverIsNone (c : Option PyVal) (k : String) : Bool :=
  match c.bind (fun cfg => serverField cfg k) with
  | some PyVal.none => true
  | _ => false

/-- The shape every fully valued `NormalizedConfig` has: a dict with
exactly `outbounds` (one outbound dict, with the protocol literal, a
`settings` block, and the synthesized `tag`) and a string `remarks`;
`withStream` records whether a `streamSettings` block is present. -/
def normalizedShape (proto : String) (withStream : Bool) (c : PyVal) : Bool :=
  match c with
  | .dict [("outbounds", .list [.dict ob]), ("remarks", .str r)] =>
      (match lookupStr ob "protocol" with
       | some (.str p) => p = proto
       | _ => false) &&
      (lookupStr ob "settings").isSome &&
      (match lookupStr ob "tag" with
       | some (.str t) => t = "outbound_" ++ r
       | _ => false) &&
      ((lookupStr ob "streamSettings").isSome = withStream)
  | _ => false

/-- The URI branch of `parse_ss` run on its own (extraction plus result
construction). -/
def parse_ss_uri_only (link : String) : Except String PyVal := do
  let p ← ss_uri_extract link
  let tagS ← pyAddTag p.tag
  pure (mkSsConfig p tagS)

/-- The keys of the possible transport-specific sub-blocks. -/
def transportKeys : List String :=
  ["tcpSettings", "kcpSettings", "wsSettings", "httpSettings",
   "httpUpgradeSettings", "quicSettings", "grpcSettings"]

/-- The keys of the possible security-specific sub-blocks. -/
def securityKeys : List String :=
  ["tlsSettings", "xtlsSettings", "realitySettings"]

/-- The first value a parameter key would contribute, disregarding
defaults: the head of a stored list, a stored plain value, and nothing
for an absent key or a stored `None` (or an ill-formed empty list). -/
def paramFirst (params : PyDict) (k : String) : Option PyVal :=
  match lookupStr params k with
  | some (.list (x :: _)) => some x
  | some (.list []) => Option.none
  | some PyVal.none => Option.none
  | some v => some v
  | Option.none => Option.none

/-- A parameter value of the shape `parse_qs` (a nonempty list of
strings) or a vmess-style plain string produces. -/
def isParamVal : PyVal → Bool
  | .str _ => true
  | .list (x :: xs) =>
      (x :: xs).all fun v =>
        match v with
        | .str _ => true
        | _ => false
  | _ => false

/-- All values of the parameter mapping are query-shaped. -/
def queryShaped (params : PyDict) : Prop :=
  ∀ kv ∈ params, isParamVal kv.2 = true

/-- Did `Except` succeed? -/
def exceptOk {α : Type} : Except String α → Bool
  | .ok _ => true
  | .error _ => false

/-- The integer-valued parameter `k`, when present as a string, parses as
a Python int. -/
def intOK (params : PyDict) (k : String) : Prop :=
  ∀ s, paramFirst params k = some (.str s) → exceptOk (pyParseInt s) = true

/-- The `mark` parameter, when present as a nonempty string, parses as a
Python int (an empty `mark` is falsy and never converted). -/
def markOK (params : PyDict) : Prop :=
  ∀ s, paramFirst params "mark" = some (.str s) → s ≠ "" →
    exceptOk (pyParseInt s) = true

/-- The integer-tuning keys of the kcp transport. -/
def kcpIntKeys : List String :=
  ["mtu", "tti", "uplinkCapacity", "downlinkCapacity",
   "readBufferSize", "writeBufferSize"]

/-- A concrete parameter set exercising the sockopt, transport and
security blocks at once. -/
def paramsWitness : PyDict :=
  [("net", .list [.str "ws"]), ("security", .list [.str "tls"]),
   ("mark", .list [.str "1"])]

/-- The StreamSettings `build_stream_settings` produces for
`paramsWitness` with default host `"h"`. -/
def ssWitness : PyDict :=
  [("network", .str "ws"), ("security", .str "tls"),
   ("sockopt", .dict [("mark", .int 1)]),
   ("wsSettings", .dict [("path", .str "/"), ("Host", .str "h")]),
   ("tlsSettings", .dict [("serverName", .str "h"), ("allowInsecure", .bool false)])]

/-- Does a link decode to a config in the driver loop? -/
def linkDecodes (link : String) : Bool :=
  match dispatch_parse link with
  | some (some _) => true
  | _ => false

/-! ## Generic inversion lemmas for the `Except` embedding -/

theorem except_bind_ok {α β : Type} {a : Except String α} {f : α → Except String β} {b : β}
    (h : (a >>= f) = .ok b) : ∃ x, a = .ok x ∧ f x = .ok b := by
  cases a with
  | ok x => exact ⟨x, rfl, h⟩
  | error e => exact absurd h (by simp [Bind.bind, Except.bind])

theorem except_map_toOption_some {α : Type} {g : α → PyVal} {a : Except String α} {c : PyVal}
    (h : (a.map g).toOption = some c) : ∃ x, a = .ok x ∧ c = g x := by
  cases a with
  | ok x =>
      refine ⟨x, rfl, ?_⟩
      simpa [Except.map, Except.toOption] using h.symm
  | error e => exact absurd h (by simp [Except.map, Except.toOption])

theorem except_toOption_some {α : Type} {a : Except String α} {c : α}
    (h : a.toOption = some c) : a = .ok c := by
  cases a with
  | ok x => simpa [Except.toOption] using h
  | error e => exact absurd h (by simp [Except.toOption])

theorem pyAddTag_ok {t : PyVal} {s : String} (h : pyAddTag t = .ok s) :
    ∃ r, t = .str r ∧ s = "outbound_" ++ r := by
  cases t <;> simp [pyAddTag] at h
  exact ⟨_, rfl, h.symm⟩

theorem pyEqStr_true {v : PyVal} {s : String} (h : pyEqStr v s = true) : v = .str s := by
  cases v <;> simp [pyEqStr] at h
  exact congrArg PyVal.str h

/-! ## C9 — the `ss://` guard: the SIP002 `else` branch is unreachable
from the dispatch -/

/-- **C9.**  Every link the scheme dispatch routes to `parse_ss` starts
with `"ss://"`, so the guard at the top of `parse_ss` is true and the
whole decode is the URI branch; the `else` (SIP002) branch is
unreachable for them. -/
theorem ss_guard_forces_uri_branch : ∀ link : String,
    (classify link = Scheme.ss → pyStartswith link "ss://" = true) ∧
    (pyStartswith link "ss://" = true →
      parse_ss link = (parse_ss_uri_only link).toOption) := by
  intro link
  constructor
  · intro h
    unfold classify at h
    by_cases h1 : pyStartswith link "vmess://" = true
    · rw [if_pos h1] at h; exact Scheme.noConfusion h
    · rw [if_neg h1] at h
      by_cases h2 : pyStartswith link "vless://" = true
      · rw [if_pos h2] at h; exact Scheme.noConfusion h
      · rw [if_neg h2] at h
        by_cases h3 : pyStartswith link "trojan://" = true
        · rw [if_pos h3] at h; exact Scheme.noConfusion h
        · rw [if_neg h3] at h
          by_cases h4 : pyStartswith link "ss://" = true
          · exact h4
          · rw [if_neg h4] at h; exact Scheme.noConfusion h
  · intro h
    simp [parse_ss, parse_ss_core, parse_ss_uri_only, h]

/-- Witness for C9 at a concrete shadowsocks link. -/
theorem ss_guard_forces_uri_branch_witness :
    pyStartswith "ss://YWVzOnB3ZA#tag" "ss://" = true ∧
    parse_ss "ss://YWVzOnB3ZA#tag" = (parse_ss_uri_only "ss://YWVzOnB3ZA#tag").toOption :=
  ⟨(ss_guard_forces_uri_branch "ss://YWVzOnB3ZA#tag").1 rfl,
   (ss_guard_forces_uri_branch "ss://YWVzOnB3ZA#tag").2 rfl⟩

/-! ## C5 — first-value-wins parameter access -/

/-- **C5.**  `get_param` takes the first value of a key stored as a list
and the default for an absent key; building from
`net=["ws","tcp"]` yields `network == "ws"`. -/
theorem get_param_first_value_wins :
    (∀ (params : PyDict) (k : String) (d x : PyVal) (xs : List PyVal),
        lookupStr params k = some (.list (x :: xs)) → get_param params k d = .ok x) ∧
    (∀ (params : PyDict) (k : String) (d : PyVal),
        lookupStr params k = Option.none → get_param params k d = .ok d) ∧
    (∀ dh : PyVal,
        ∃ ss, build_stream_settings [("net", .list [.str "ws", .str "tcp"])] dh = .ok ss ∧
          lookupStr ss "network" = some (.str "ws")) := by
  refine ⟨?_, ?_, ?_⟩
  · intro params k d x xs h
    simp [get_param, h]
  · intro params k d h
    simp [get_param, h]
  · intro dh
    exact ⟨[("network", .str "ws"), ("security", .str "none"),
            ("wsSettings", .dict [("path", .str "/"), ("Host", dh)])], rfl, rfl⟩

/-- Witness for C5 at concrete inputs. -/
theorem get_param_first_value_wins_witness :
    get_param [("a", PyVal.list [PyVal.str "1", PyVal.str "2"])] "a" PyVal.none
      = .ok (PyVal.str "1") ∧
    get_param ([] : PyDict) "b" (PyVal.str "d") = .ok (PyVal.str "d") ∧
    ∃ ss, build_stream_settings [("net", PyVal.list [PyVal.str "ws", PyVal.str "tcp"])]
        (PyVal.str "h") = .ok ss ∧ lookupStr ss "network" = some (PyVal.str "ws") :=
  ⟨get_param_first_value_wins.1 _ "a" PyVal.none _ _ rfl,
   get_param_first_value_wins.2.1 _ "b" _ rfl,
   get_param_first_value_wins.2.2 (PyVal.str "h")⟩

/-! ## C1 — the two shadowsocks encodings do *not* decode identically

Both links below encode the logical tuple
(method `aes`, password `pwd`, address `example.com`, port 8388, tag `t`):
the first in the claim's legacy form (base64 of `method:password` as the
userinfo, host/port in the URI), the second in SIP002 form (one base64
token of `method:password@host:port`).  Because `parse_ss` branches on
`link.startswith("ss://")` — true for both — the SIP002 link is decoded
by the URI branch, which yields the lowercased base64 token as the
address, `None` as the port, and the full `password@host:port` remainder
as the password. -/

/-- **C1.**  The legacy and SIP002 encodings of the same logical tuple
decode to different `NormalizedConfig` content. -/
theorem ss_roundtrip_fails :
    serverStr (parse_ss "ss://YWVzOnB3ZA==@example.com:8388#t") "address" = some "example.com" ∧
    serverStr (parse_ss "ss://YWVzOnB3ZA==@example.com:8388#t") "password" = some "pwd" ∧
    serverInt (parse_ss "ss://YWVzOnB3ZA==@example.com:8388#t") "port" = some 8388 ∧
    serverStr (parse_ss "ss://YWVzOnB3ZEBleGFtcGxlLmNvbTo4Mzg4#t") "address"
      = some "ywvzonb3zeblegftcgxllmnvbto4mzg4" ∧
    serverStr (parse_ss "ss://YWVzOnB3ZEBleGFtcGxlLmNvbTo4Mzg4#t") "password"
      = some "pwd@example.com:8388" ∧
    serverIsNone (parse_ss "ss://YWVzOnB3ZEBleGFtcGxlLmNvbTo4Mzg4#t") "port" = true :=
  ⟨rfl, rfl, rfl, rfl, rfl, rfl⟩

/-! ## C2 — the branch selection is *not* by URI-parseability -/

/-- **C2, counterexample.**  `ss://cmM0OnB3QGhvLmlvOjgw#x` is a
SIP002-form link (the base64 token decodes to `rc4:pw@ho.io:80`); the
claim predicts address `ho.io`, password `pw` and port 80, but the code
selects the URI branch (the link starts with `ss://`) and produces the
lowercased token as the address and the `@`-joined remainder as the
password. -/
theorem ss_sip002_link_not_split_as_claimed :
    serverStr (parse_ss "ss://cmM0OnB3QGhvLmlvOjgw#x") "address" = some "cmm0onb3qghvlmlvojgw" ∧
    serverStr (parse_ss "ss://cmM0OnB3QGhvLmlvOjgw#x") "address" ≠ some "ho.io" ∧
    serverStr (parse_ss "ss://cmM0OnB3QGhvLmlvOjgw#x") "password" = some "pw@ho.io:80" ∧
    serverStr (parse_ss "ss://cmM0OnB3QGhvLmlvOjgw#x") "password" ≠ some "pw" ∧
    serverIsNone (parse_ss "ss://cmM0OnB3QGhvLmlvOjgw#x") "port" = true :=
  ⟨rfl, by decide, rfl, by decide, rfl⟩

/-! ## C4 — a decoded link whose persist fails is counted as a success -/

/-- **C4, counterexample.**  One well-formed trojan link, a filesystem
that refuses every write: the save reports the caught `IOError`, yet the
run counts one success and zero failures. -/
theorem persist_failure_counted_as_success :
    main_loop ["trojan://p@h:1#t"] (fun _ => false)
      = .ok (1, 0, [some (SaveOutcome.ioError "t.json")]) := rfl

/-! ## Splitting lemmas for the SIP002 branch -/

theorem splitOnceChar_not_mem {sep : Char} {cs : List Char} (h : sep ∉ cs) :
    splitOnceChar sep cs = Option.none := by
  induction cs with
  | nil => rfl
  | cons c rest ih =>
      have hc : ¬(c = sep) := fun hcs => h (hcs ▸ List.mem_cons_self c rest)
      have hrest : sep ∉ rest := fun hm => h (List.mem_cons_of_mem c hm)
      simp [splitOnceChar, hc, ih hrest]

theorem splitOnceChar_append {sep : Char} {a : List Char} (b : List Char) (h : sep ∉ a) :
    splitOnceChar sep (a ++ sep :: b) = some (a, b) := by
  induction a with
  | nil => simp [splitOnceChar]
  | cons c rest ih =>
      have hc : ¬(c = sep) := fun hcs => h (hcs ▸ List.mem_cons_self c rest)
      have hrest : sep ∉ rest := fun hm => h (List.mem_cons_of_mem c hm)
      simp [splitOnceChar, hc, ih hrest]

theorem rsplitAux_not_mem {sep : Char} {cs : List Char} (h : sep ∉ cs) :
    rsplitOnceChar.rsplitOnceChar' sep cs = Option.none := by
  induction cs with
  | nil => rfl
  | cons c rest ih =>
      have hc : ¬(c = sep) := fun hcs => h (hcs ▸ List.mem_cons_self c rest)
      have hrest : sep ∉ rest := fun hm => h (List.mem_cons_of_mem c hm)
      simp [rsplitOnceChar.rsplitOnceChar', hc, ih hrest]

theorem rsplitAux_append {sep : Char} {a : List Char} (b : List Char) (h : sep ∉ a) :
    rsplitOnceChar.rsplitOnceChar' sep (a ++ sep :: b) = some (a, b) := by
  induction a with
  | nil => simp [rsplitOnceChar.rsplitOnceChar']
  | cons c rest ih =>
      have hc : ¬(c = sep) := fun hcs => h (hcs ▸ List.mem_cons_self c rest)
      have hrest : sep ∉ rest := fun hm => h (List.mem_cons_of_mem c hm)
      simp [rsplitOnceChar.rsplitOnceChar', hc, ih hrest]

/-- Splitting at the last separator: when the separator does not occur
after it, `rsplit` cuts exactly there. -/
theorem rsplitOnceChar_append {sep : Char} (a : List Char) {b : List Char} (h : sep ∉ b) :
    rsplitOnceChar sep (a ++ sep :: b) = some (a, b) := by
  have hrev : (a ++ sep :: b).reverse = b.reverse ++ sep :: a.reverse := by
    simp [List.reverse_append]
  have hnb : sep ∉ b.reverse := fun hm => h (List.mem_reverse.mp hm)
  simp [rsplitOnceChar, hrev, rsplitAux_append a.reverse hnb]

theorem pySplitAllChar_not_mem {sep : Char} {cs : List Char} (h : sep ∉ cs) :
    pySplitAllChar sep cs = [cs] := by
  induction cs with
  | nil => rfl
  | cons c rest ih =>
      have hc : ¬(c = sep) := fun hcs => h (hcs ▸ List.mem_cons_self c rest)
      have hrest : sep ∉ rest := fun hm => h (List.mem_cons_of_mem c hm)
      simp [pySplitAllChar, hc, ih hrest]

theorem pySplitAllChar_append {sep : Char} {a : List Char} (b : List Char) (h : sep ∉ a) :
    pySplitAllChar sep (a ++ sep :: b) = a :: pySplitAllChar sep b := by
  induction a with
  | nil => simp [pySplitAllChar]
  | cons c rest ih =>
      have hc : ¬(c = sep) := fun hcs => h (hcs ▸ List.mem_cons_self c rest)
      have hrest : sep ∉ rest := fun hm => h (List.mem_cons_of_mem c hm)
      rw [List.cons_append, pySplitAllChar, if_neg hc, ih hrest]

theorem isDigit_ne_at {c : Char} (h : c.isDigit = true) : c ≠ '@' ∧ c ≠ ':' ∧ c ≠ '#' := by
  refine ⟨fun he => ?_, fun he => ?_, fun he => ?_⟩ <;> subst he <;> exact absurd h (by decide)

theorem strData_append (a b : String) : (a ++ b).data = a.data ++ b.data := rfl

theorem bind_ok_l {α β : Type} (x : α) (f : α → Except String β) :
    ((Except.ok x : Except String α) >>= f) = f x := rfl

/-- The SIP002 `else` branch of `parse_ss` on a structurally well-formed
input: five characters are dropped, the remainder splits at `#` into a
base64 token and a tag, the token's decode splits at the first `:`, the
last `@`, and the server part's first `:`, and the port parses as an
integer. -/
theorem sip002_extract_spec
    (pre tok tag method pw host portStr : String) (port : Int) (bytes : List Nat)
    (hpre : pre.length = 5)
    (htok : '#' ∉ tok.data) (htag : '#' ∉ tag.data)
    (hm : ':' ∉ method.data) (hh1 : '@' ∉ host.data) (hh2 : ':' ∉ host.data)
    (hdig : ∀ c ∈ portStr.data, c.isDigit = true)
    (hb64 : urlsafe_b64decode (tok ++ "==") = .ok bytes)
    (hutf : utf8DecodeStr bytes = .ok (method ++ ":" ++ pw ++ "@" ++ host ++ ":" ++ portStr))
    (hport : pyParseInt portStr = .ok port) :
    ss_sip002_extract (pre ++ tok ++ "#" ++ tag) =
      .ok ⟨method, pw, .str host, .int port, .str (unquote tag)⟩ := by
  have hlink : (pre ++ tok ++ "#" ++ tag).data
      = pre.data ++ (tok.data ++ '#' :: tag.data) := by
    simp [strData_append]
  have hdrop : pyDrop (pre ++ tok ++ "#" ++ tag) 5 = ⟨tok.data ++ '#' :: tag.data⟩ := by
    rw [pyDrop, hlink, show (5 : Nat) = pre.data.length from hpre.symm, List.drop_left]
  have hsplit : pySplitAll (⟨tok.data ++ '#' :: tag.data⟩ : String) '#' = [tok, tag] := by
    rw [pySplitAll, show (⟨tok.data ++ '#' :: tag.data⟩ : String).data
          = tok.data ++ '#' :: tag.data from rfl,
        pySplitAllChar_append _ htok, pySplitAllChar_not_mem htag]
    rfl
  have hdec : (method ++ ":" ++ pw ++ "@" ++ host ++ ":" ++ portStr).data
      = method.data ++ ':' :: (pw ++ "@" ++ host ++ ":" ++ portStr).data := by
    simp [strData_append]
  have h1 : pySplitOnce (method ++ ":" ++ pw ++ "@" ++ host ++ ":" ++ portStr) ':'
      = .ok (method, pw ++ "@" ++ host ++ ":" ++ portStr) := by
    rw [pySplitOnce, hdec, splitOnceChar_append _ hm]
  have hserver : (pw ++ "@" ++ host ++ ":" ++ portStr).data
      = pw.data ++ '@' :: (host.data ++ ':' :: portStr.data) := by
    simp [strData_append]
  have hnoAt : '@' ∉ host.data ++ ':' :: portStr.data := by
    intro hmem
    rcases List.mem_append.mp hmem with hin | hin
    · exact hh1 hin
    · rcases List.mem_cons.mp hin with hin | hin
      · exact absurd hin (by decide)
      · exact (isDigit_ne_at (hdig _ hin)).1 rfl
  have h2 : pyRSplitOnce (pw ++ "@" ++ host ++ ":" ++ portStr) '@'
      = .ok (pw, ⟨host.data ++ ':' :: portStr.data⟩) := by
    rw [pyRSplitOnce, hserver, rsplitOnceChar_append _ hnoAt]
  have h3 : pySplitOnce (⟨host.data ++ ':' :: portStr.data⟩ : String) ':'
      = .ok (host, portStr) := by
    rw [pySplitOnce, show (⟨host.data ++ ':' :: portStr.data⟩ : String).data
          = host.data ++ ':' :: portStr.data from rfl, splitOnceChar_append _ hh2]
  simp only [ss_sip002_extract, hdrop, hsplit, List.headD_cons, hb64, bind_ok_l, hutf,
    h1, h2, h3, hport]
  rfl

/-- **C2, amended.**  `parse_ss` selects its two branches by whether the
link starts with `"ss://"` (not by URI-parseability); the branch
implementing the claimed SIP002 splitting is reached exactly by links
*not* starting with `"ss://"`, and on them it drops the first five
characters, base64-decodes everything before the optional `#`, splits the
result at the first `:` into method and rest, splits rest at the last `@`
into password and server part, splits the server part at `:` into host
and integer port, and takes the tag from the percent-decoded fragment. -/
theorem ss_branch_selection_by_prefix
    (pre tok tag method pw host portStr : String) (port : Int) (bytes : List Nat)
    (hpre : pre.length = 5)
    (htok : '#' ∉ tok.data) (htag : '#' ∉ tag.data)
    (hm : ':' ∉ method.data) (hh1 : '@' ∉ host.data) (hh2 : ':' ∉ host.data)
    (hdig : ∀ c ∈ portStr.data, c.isDigit = true)
    (hb64 : urlsafe_b64decode (tok ++ "==") = .ok bytes)
    (hutf : utf8DecodeStr bytes = .ok (method ++ ":" ++ pw ++ "@" ++ host ++ ":" ++ portStr))
    (hport : pyParseInt portStr = .ok port)
    (hns : pyStartswith (pre ++ tok ++ "#" ++ tag) "ss://" = false) :
    parse_ss (pre ++ tok ++ "#" ++ tag) =
      some (mkSsConfig ⟨method, pw, .str host, .int port, .str (unquote tag)⟩
        ("outbound_" ++ unquote tag)) := by
  have hex := sip002_extract_spec pre tok tag method pw host portStr port bytes
    hpre htok htag hm hh1 hh2 hdig hb64 hutf hport
  simp [parse_ss, parse_ss_core, hns, hex, pyAddTag, Except.toOption, bind_ok_l,
    Functor.map, Except.map]

/-- Witness for the amended C2 at a concrete non-`ss://` input. -/
theorem ss_branch_selection_by_prefix_witness :
    parse_ss ("xx://" ++ "cmM0OnB3QGhvLmlvOjgw" ++ "#" ++ "x")
      = some (mkSsConfig ⟨"rc4", "pw", .str "ho.io", .int 80, .str (unquote "x")⟩
          ("outbound_" ++ unquote "x")) :=
  ss_branch_selection_by_prefix "xx://" "cmM0OnB3QGhvLmlvOjgw" "x" "rc4" "pw" "ho.io" "80" 80
    [114, 99, 52, 58, 112, 119, 64, 104, 111, 46, 105, 111, 58, 56, 48]
    rfl (by decide) (by decide) (by decide) (by decide) (by decide) (by decide)
    rfl rfl rfl (by decide)

/-! ## Inversion of the decoders -/

theorem vmess_extract_inv {link : String} {p : VmessParts}
    (h : vmess_extract link = .ok p) :
    ∃ d, vmess_payload link = .ok (.dict d) ∧
      p.address = (lookupStr d "add").getD (.str "") ∧
      p.tag = (lookupStr d "ps").getD ((lookupStr d "add").getD (.str "")) ∧
      pyInt ((lookupStr d "port").getD (.int 0)) = .ok p.port ∧
      ∃ r, p.tag = .str r ∧ p.tagS = "outbound_" ++ r := by
  unfold vmess_extract at h
  obtain ⟨data, hd, h⟩ := except_bind_ok h
  cases data with
  | dict d =>
      obtain ⟨port, hport, h⟩ := except_bind_ok h
      obtain ⟨aid, haid, h⟩ := except_bind_ok h
      obtain ⟨ss, hss, h⟩ := except_bind_ok h
      obtain ⟨tagS, htagS, h⟩ := except_bind_ok h
      have hp : VmessParts.mk ((lookupStr d "add").getD (.str ""))
          ((lookupStr d "ps").getD ((lookupStr d "add").getD (.str "")))
          port ((lookupStr d "id").getD (.str "")) aid
          ((lookupStr d "scy").getD (.str "auto")) ss tagS = p := by
        simpa [pure, Except.pure] using h
      obtain ⟨r, hr, hs⟩ := pyAddTag_ok htagS
      refine ⟨d, hd, ?_, ?_, ?_, ⟨r, ?_, ?_⟩⟩ <;> rw [← hp] <;> simp_all
  | str s => exact absurd h (by simp)
  | int n => exact absurd h (by simp)
  | bool b => exact absurd h (by simp)
  | none => exact absurd h (by simp)
  | list xs => exact absurd h (by simp)

theorem vless_extract_inv {link : String} {p : VlessParts}
    (h : vless_extract link = .ok p) :
    ∃ portO, urlPort (urlsplit link) = .ok portO ∧ p.port = ((portO.getD 0 : Nat) : Int) := by
  unfold vless_extract at h
  obtain ⟨portO, hp, h⟩ := except_bind_ok h
  obtain ⟨enc, he, h⟩ := except_bind_ok h
  obtain ⟨flow, hf, h⟩ := except_bind_ok h
  obtain ⟨ss, hss, h⟩ := except_bind_ok h
  refine ⟨portO, hp, ?_⟩
  have := h
  simp [pure, Except.pure] at this
  rw [← this]

theorem trojan_extract_inv {link : String} {p : TrojanParts}
    (h : trojan_extract link = .ok p) :
    ∃ portO, urlPort (urlsplit link) = .ok portO ∧ p.port = ((portO.getD 0 : Nat) : Int) := by
  unfold trojan_extract at h
  obtain ⟨portO, hp, h⟩ := except_bind_ok h
  obtain ⟨ss, hss, h⟩ := except_bind_ok h
  refine ⟨portO, hp, ?_⟩
  have := h
  simp [pure, Except.pure] at this
  rw [← this]

theorem ss_uri_extract_inv {link : String} {p : SsParts}
    (h : ss_uri_extract link = .ok p) :
    ∃ portO, urlPort (urlsplit link) = .ok portO ∧
      p.port = (match portO with | some n => PyVal.int (n : Nat) | Option.none => PyVal.none) := by
  unfold ss_uri_extract at h
  obtain ⟨bytes, hb, h⟩ := except_bind_ok h
  obtain ⟨decoded, hdec, h⟩ := except_bind_ok h
  obtain ⟨mp, hmp, h⟩ := except_bind_ok h
  obtain ⟨portO, hp, h⟩ := except_bind_ok h
  refine ⟨portO, hp, ?_⟩
  have := h
  simp [pure, Except.pure] at this
  rw [← this]

theorem parse_ss_core_inv {link : String} {c : PyVal}
    (h : parse_ss_core link = .ok c) :
    ∃ p tagS, (if pyStartswith link "ss://" then ss_uri_extract link
        else ss_sip002_extract link) = .ok p ∧
      pyAddTag p.tag = .ok tagS ∧ c = mkSsConfig p tagS := by
  unfold parse_ss_core at h
  by_cases hc : pyStartswith link "ss://" = true
  · simp only [hc, if_true] at h ⊢
    obtain ⟨p, hp, h⟩ := except_bind_ok h
    obtain ⟨tagS, ht, h⟩ := except_bind_ok h
    exact ⟨p, tagS, hp, ht, by simpa [pure, Except.pure] using h.symm⟩
  · simp only [hc, if_false] at h ⊢
    obtain ⟨p, hp, h⟩ := except_bind_ok h
    obtain ⟨tagS, ht, h⟩ := except_bind_ok h
    exact ⟨p, tagS, hp, ht, by simpa [pure, Except.pure] using h.symm⟩

/-! ## Shape of the constructed configs -/

theorem shape_mkVmess {p : VmessParts} {r : String}
    (hr : p.tag = .str r) (hs : p.tagS = "outbound_" ++ r) :
    normalizedShape "vmess" true (mkVmessConfig p) = true := by
  simp [mkVmessConfig, normalizedShape, lookupStr, hr, hs]

theorem shape_mkVless (p : VlessParts) :
    normalizedShape "vless" true (mkVlessConfig p) = true := by
  simp [mkVlessConfig, normalizedShape, lookupStr]

theorem shape_mkTrojan (p : TrojanParts) :
    normalizedShape "trojan" true (mkTrojanConfig p) = true := by
  simp [mkTrojanConfig, normalizedShape, lookupStr]

theorem shape_mkSs {p : SsParts} {tagS : String} {r : String}
    (hr : p.tag = .str r) (hs : tagS = "outbound_" ++ r) :
    normalizedShape "shadowsocks" false (mkSsConfig p tagS) = true := by
  simp [mkSsConfig, normalizedShape, lookupStr, hr, hs]

/-! ## C8 — each decoder returns a whole config or nothing -/

/-- **C8.**  Every successful decode of any of the four parsers is a
fully valued `NormalizedConfig`: a dict with exactly `outbounds` (one
outbound carrying the protocol literal, a `settings` block and the tag
`"outbound_" + remarks`) and a string `remarks`, with a `streamSettings`
block for vmess/vless/trojan and none for shadowsocks; a failing decode
returns `none` (the parsers' result type), never a partial record. -/
theorem decoders_whole_config_or_nothing : ∀ link : String,
    (∀ c, parse_vmess link = some c → normalizedShape "vmess" true c = true) ∧
    (∀ c, parse_vless link = some c → normalizedShape "vless" true c = true) ∧
    (∀ c, parse_trojan link = some c → normalizedShape "trojan" true c = true) ∧
    (∀ c, parse_ss link = some c → normalizedShape "shadowsocks" false c = true) := by
  intro link
  refine ⟨?_, ?_, ?_, ?_⟩
  · intro c h
    unfold parse_vmess at h
    obtain ⟨p, hex, hc⟩ := except_map_toOption_some h
    obtain ⟨d, _, _, _, _, r, hr, hs⟩ := vmess_extract_inv hex
    exact hc ▸ shape_mkVmess hr hs
  · intro c h
    unfold parse_vless at h
    obtain ⟨p, _, hc⟩ := except_map_toOption_some h
    exact hc ▸ shape_mkVless p
  · intro c h
    unfold parse_trojan at h
    obtain ⟨p, _, hc⟩ := except_map_toOption_some h
    exact hc ▸ shape_mkTrojan p
  · intro c h
    unfold parse_ss at h
    have hcore := except_toOption_some h
    obtain ⟨p, tagS, _, ht, hc⟩ := parse_ss_core_inv hcore
    obtain ⟨r, hr, hs⟩ := pyAddTag_ok ht
    exact hc ▸ shape_mkSs hr hs

/-- Witness for C8: the four decoders evaluated at concrete well-formed
links. -/
theorem decoders_whole_config_or_nothing_witness :
    normalizedShape "vmess" true
      ((parse_vmess "vmess://eyJhZGQiOiAiaC5pbyIsICJpZCI6ICJ1MSJ9").getD PyVal.none) = true ∧
    normalizedShape "vless" true
      ((parse_vless "vless://u@h:1#n").getD PyVal.none) = true ∧
    normalizedShape "trojan" true
      ((parse_trojan "trojan://p@h:1#t").getD PyVal.none) = true ∧
    normalizedShape "shadowsocks" false
      ((parse_ss "ss://YWVzOnB3ZA#tag").getD PyVal.none) = true :=
  ⟨(decoders_whole_config_or_nothing "vmess://eyJhZGQiOiAiaC5pbyIsICJpZCI6ICJ1MSJ9").1 _
     (by rfl),
   (decoders_whole_config_or_nothing "vless://u@h:1#n").2.1 _ (by rfl),
   (decoders_whole_config_or_nothing "trojan://p@h:1#t").2.2.1 _ (by rfl),
   (decoders_whole_config_or_nothing "ss://YWVzOnB3ZA#tag").2.2.2 _ (by rfl)⟩

/-! ## C10 — shadowsocks emits a `None` port, the other three default to 0 -/

theorem serverField_mkSs (p : SsParts) (tagS : String) :
    serverField (mkSsConfig p tagS) "port" = some p.port := by
  simp [mkSsConfig, serverField, firstOutbound, configField, lookupStr, Option.bind]

theorem vnextField_mkVmess (p : VmessParts) :
    vnextField (mkVmessConfig p) "port" = some (.int p.port) := by
  simp [mkVmessConfig, vnextField, firstOutbound, configField, lookupStr, Option.bind]

theorem vnextField_mkVless (p : VlessParts) :
    vnextField (mkVlessConfig p) "port" = some (.int p.port) := by
  simp [mkVlessConfig, vnextField, firstOutbound, configField, lookupStr, Option.bind]

theorem serverField_mkTrojan (p : TrojanParts) :
    serverField (mkTrojanConfig p) "port" = some (.int p.port) := by
  simp [mkTrojanConfig, serverField, firstOutbound, configField, lookupStr, Option.bind]

/-- **C10.**  A shadowsocks link decoded through the URI branch with no
explicit port in its authority stores the Python `None` as
`servers[0].port` (JSON `null`), while vmess defaults a missing `port`
field to 0 and vless/trojan default a missing URI port to 0. -/
theorem ss_port_none_others_zero :
    (∀ link c, parse_ss link = some c → pyStartswith link "ss://" = true →
        urlPort (urlsplit link) = .ok Option.none →
        serverField c "port" = some PyVal.none) ∧
    (∀ link c d, parse_vmess link = some c → vmess_payload link = .ok (.dict d) →
        lookupStr d "port" = Option.none → vnextField c "port" = some (PyVal.int 0)) ∧
    (∀ link c, parse_vless link = some c → urlPort (urlsplit link) = .ok Option.none →
        vnextField c "port" = some (PyVal.int 0)) ∧
    (∀ link c, parse_trojan link = some c → urlPort (urlsplit link) = .ok Option.none →
        serverField c "port" = some (PyVal.int 0)) := by
  refine ⟨?_, ?_, ?_, ?_⟩
  · intro link c hsome hss hport
    unfold parse_ss at hsome
    obtain ⟨p, tagS, hbranch, _, hc⟩ := parse_ss_core_inv (except_toOption_some hsome)
    rw [if_pos hss] at hbranch
    obtain ⟨portO, hpO, hpp⟩ := ss_uri_extract_inv hbranch
    rw [hport] at hpO
    injection hpO with hpO
    subst hc
    rw [serverField_mkSs, hpp, ← hpO]
  · intro link c d hsome hpay hnone
    unfold parse_vmess at hsome
    obtain ⟨p, hex, hc⟩ := except_map_toOption_some hsome
    obtain ⟨d', hd', _, _, hint, _⟩ := vmess_extract_inv hex
    rw [hpay] at hd'
    injection hd' with hd'
    injection hd' with hd'
    rw [← hd', hnone] at hint
    have h0 : p.port = 0 := by
      have h' : (Except.ok 0 : Except String Int) = .ok p.port := by
        simpa [pyInt] using hint
      injection h' with h'
      exact h'.symm
    subst hc
    rw [vnextField_mkVmess, h0]
  · intro link c hsome hport
    unfold parse_vless at hsome
    obtain ⟨p, hex, hc⟩ := except_map_toOption_some hsome
    obtain ⟨portO, hpO, hpp⟩ := vless_extract_inv hex
    rw [hport] at hpO
    injection hpO with hpO
    subst hc
    rw [vnextField_mkVless, hpp, ← hpO]
    rfl
  · intro link c hsome hport
    unfold parse_trojan at hsome
    obtain ⟨p, hex, hc⟩ := except_map_toOption_some hsome
    obtain ⟨portO, hpO, hpp⟩ := trojan_extract_inv hex
    rw [hport] at hpO
    injection hpO with hpO
    subst hc
    rw [serverField_mkTrojan, hpp, ← hpO]
    rfl

/-- Witness for C10 at concrete links: a portless shadowsocks link, a
vmess payload without `port`, and portless vless/trojan links. -/
theorem ss_port_none_others_zero_witness :
    serverField ((parse_ss "ss://YWVzOnB3ZA#tag").getD PyVal.none) "port" = some PyVal.none ∧
    vnextField ((parse_vmess "vmess://eyJhZGQiOiAiaC5pbyIsICJpZCI6ICJ1MSJ9").getD PyVal.none)
      "port" = some (PyVal.int 0) ∧
    vnextField ((parse_vless "vless://u@h#n").getD PyVal.none) "port" = some (PyVal.int 0) ∧
    serverField ((parse_trojan "trojan://p@h#t").getD PyVal.none) "port" = some (PyVal.int 0) :=
  ⟨ss_port_none_others_zero.1 "ss://YWVzOnB3ZA#tag" _ (by rfl) (by rfl) (by rfl),
   ss_port_none_others_zero.2.1 "vmess://eyJhZGQiOiAiaC5pbyIsICJpZCI6ICJ1MSJ9" _
     [("add", PyVal.str "h.io"), ("id", PyVal.str "u1")] (by rfl) (by rfl) (by rfl),
   ss_port_none_others_zero.2.2.1 "vless://u@h#n" _ (by rfl) (by rfl),
   ss_port_none_others_zero.2.2.2 "trojan://p@h#t" _ (by rfl) (by rfl)⟩

/-! ## C4 (amended) — per-link failure isolation and the counters -/

theorem sanitize_str_ok (s : String) : ∃ t, sanitize_filename (PyVal.str s) = .ok t := by
  unfold sanitize_filename
  by_cases h : truthy (.str s) = true
  · simp only [h]
    by_cases h2 : (collapseRuns s.data).filter keepChar = []
    · exact ⟨"unnamed_config", by simp [h2]⟩
    · exact ⟨⟨(collapseRuns s.data).filter keepChar⟩, by simp [h2]⟩
  · exact ⟨"unnamed_config", by simp [h]⟩

theorem save_mkVmess_ok {p : VmessParts} {r : String} (hr : p.tag = .str r)
    (w : String → Bool) : ∃ oc, save_config_to_file (mkVmessConfig p) w = .ok oc := by
  obtain ⟨t, ht⟩ := sanitize_str_ok r
  exact ⟨if w (t ++ ".json") then .wrote (t ++ ".json") else .ioError (t ++ ".json"),
    by simp [save_config_to_file, mkVmessConfig, lookupStr, hr, ht, bind_ok_l]⟩

theorem save_mkVless_ok (p : VlessParts) (w : String → Bool) :
    ∃ oc, save_config_to_file (mkVlessConfig p) w = .ok oc := by
  obtain ⟨t, ht⟩ := sanitize_str_ok p.tag
  exact ⟨if w (t ++ ".json") then .wrote (t ++ ".json") else .ioError (t ++ ".json"),
    by simp [save_config_to_file, mkVlessConfig, lookupStr, ht, bind_ok_l]⟩

theorem save_mkTrojan_ok (p : TrojanParts) (w : String → Bool) :
    ∃ oc, save_config_to_file (mkTrojanConfig p) w = .ok oc := by
  obtain ⟨t, ht⟩ := sanitize_str_ok p.tag
  exact ⟨if w (t ++ ".json") then .wrote (t ++ ".json") else .ioError (t ++ ".json"),
    by simp [save_config_to_file, mkTrojanConfig, lookupStr, ht, bind_ok_l]⟩

theorem save_mkSs_ok {p : SsParts} {tagS : String} {r : String} (hr : p.tag = .str r)
    (w : String → Bool) : ∃ oc, save_config_to_file (mkSsConfig p tagS) w = .ok oc := by
  obtain ⟨t, ht⟩ := sanitize_str_ok r
  exact ⟨if w (t ++ ".json") then .wrote (t ++ ".json") else .ioError (t ++ ".json"),
    by simp [save_config_to_file, mkSsConfig, lookupStr, hr, ht, bind_ok_l]⟩

/-- Every config the dispatch produces can be saved without an uncaught
exception (its `remarks` is always a string). -/
theorem dispatch_saves {link : String} {c : PyVal}
    (h : dispatch_parse link = some (some c)) (w : String → Bool) :
    ∃ oc, save_config_to_file c w = .ok oc := by
  unfold dispatch_parse at h
  cases hcl : classify link <;> rw [hcl] at h
  case vmess =>
    injection h with h
    unfold parse_vmess at h
    obtain ⟨p, hex, hc⟩ := except_map_toOption_some h
    obtain ⟨_, _, _, _, _, r, hr, _⟩ := vmess_extract_inv hex
    exact hc ▸ save_mkVmess_ok hr w
  case vless =>
    injection h with h
    unfold parse_vless at h
    obtain ⟨p, _, hc⟩ := except_map_toOption_some h
    exact hc ▸ save_mkVless_ok p w
  case trojan =>
    injection h with h
    unfold parse_trojan at h
    obtain ⟨p, _, hc⟩ := except_map_toOption_some h
    exact hc ▸ save_mkTrojan_ok p w
  case ss =>
    injection h with h
    unfold parse_ss at h
    obtain ⟨p, tagS, _, ht, hc⟩ := parse_ss_core_inv (except_toOption_some h)
    obtain ⟨r, hr, _⟩ := pyAddTag_ok ht
    exact hc ▸ save_mkSs_ok hr w
  case unsupported => exact absurd h (by simp)

/-- **C4, amended.**  For every link list and every filesystem, the run
completes (no uncaught exception), processes each link (one save-outcome
slot per link), and the counters partition the links by decodability
alone: `successful_configs` counts the links whose decode succeeded —
regardless of whether their persist succeeded — and `failed_configs`
counts unsupported schemes and failed decodes. -/
theorem failure_isolated_counts : ∀ (links : List String) (w : String → Bool),
    ∃ os, main_loop links w
        = .ok (links.countP linkDecodes, links.countP (fun l => !linkDecodes l), os) ∧
      os.length = links.length := by
  intro links w
  induction links with
  | nil => exact ⟨[], rfl, rfl⟩
  | cons l ls ih =>
      obtain ⟨os, hml, hlen⟩ := ih
      cases hd : dispatch_parse l with
      | none =>
          have hp1 : process_one l w = .ok (false, Option.none) := by
            simp [process_one, hd]
          have hld : linkDecodes l = false := by simp [linkDecodes, hd]
          exact ⟨Option.none :: os,
            by simp [main_loop, hp1, hml, hld, List.countP_cons],
            by simp [hlen]⟩
      | some r =>
          cases r with
          | none =>
              have hp1 : process_one l w = .ok (false, Option.none) := by
                simp [process_one, hd]
              have hld : linkDecodes l = false := by simp [linkDecodes, hd]
              exact ⟨Option.none :: os,
                by simp [main_loop, hp1, hml, hld, List.countP_cons],
                by simp [hlen]⟩
          | some c =>
              obtain ⟨oc, hoc⟩ := dispatch_saves hd w
              have hp1 : process_one l w = .ok (true, some oc) := by
                simp [process_one, hd, hoc]
              have hld : linkDecodes l = true := by simp [linkDecodes, hd]
              exact ⟨some oc :: os,
                by simp [main_loop, hp1, hml, hld, List.countP_cons],
                by simp [hlen]⟩

/-! ## Lemmas on `get_param` for the Settings Builder claims -/

theorem get_param_paramFirst {params : PyDict} {k : String} {d v : PyVal}
    (h : get_param params k d = .ok v) :
    paramFirst params k = some v ∨ (paramFirst params k = Option.none ∧ v = d) := by
  unfold get_param at h
  unfold paramFirst
  cases hl : lookupStr params k with
  | none =>
      rw [hl] at h
      right
      refine ⟨rfl, ?_⟩
      injection h with h
      exact h.symm
  | some val =>
      rw [hl] at h
      cases val with
      | none =>
          right
          refine ⟨rfl, ?_⟩
          injection h with h
          exact h.symm
      | list xs =>
          cases xs with
          | nil => exact absurd h (by simp)
          | cons x rest =>
              left
              injection h with h
              rw [← h]
      | str s => left; injection h with h; rw [← h]
      | int n => left; injection h with h; rw [← h]
      | bool b => left; injection h with h; rw [← h]
      | dict dd => left; injection h with h; rw [← h]

theorem lookup_queryShaped {params : PyDict} {k : String} {v : PyVal}
    (hq : queryShaped params) (hl : lookupStr params k = some v) : isParamVal v = true := by
  induction params with
  | nil => exact absurd hl (by simp [lookupStr])
  | cons kv rest ih =>
      rw [lookupStr] at hl
      by_cases he : kv.1 = k
      · rw [if_pos he] at hl
        injection hl with hl
        exact hl ▸ hq kv (List.mem_cons_self kv rest)
      · rw [if_neg he] at hl
        exact ih (fun e hm => hq e (List.mem_cons_of_mem kv hm)) hl

theorem get_param_total {params : PyDict} (hq : queryShaped params) (k : String) (d : PyVal) :
    ∃ v, get_param params k d = .ok v ∧ (v = d ∨ ∃ s, v = .str s) := by
  unfold get_param
  cases hl : lookupStr params k with
  | none => exact ⟨d, rfl, Or.inl rfl⟩
  | some val =>
      have hv := lookup_queryShaped hq hl
      cases val with
      | str s => exact ⟨.str s, rfl, Or.inr ⟨s, rfl⟩⟩
      | list xs =>
          cases xs with
          | nil => exact absurd hv (by simp [isParamVal])
          | cons x rest =>
              cases x with
              | str s => exact ⟨.str s, rfl, Or.inr ⟨s, rfl⟩⟩
              | none => exact absurd hv (by simp [isParamVal])
              | int n => exact absurd hv (by simp [isParamVal])
              | bool b => exact absurd hv (by simp [isParamVal])
              | list ys => exact absurd hv (by simp [isParamVal])
              | dict dd => exact absurd hv (by simp [isParamVal])
      | none => exact absurd hv (by simp [isParamVal])
      | int n => exact absurd hv (by simp [isParamVal])
      | bool b => exact absurd hv (by simp [isParamVal])
      | dict dd => exact absurd hv (by simp [isParamVal])

theorem exceptOk_exists {α : Type} {e : Except String α} (h : exceptOk e = true) :
    ∃ x, e = .ok x := by
  cases e with
  | ok x => exact ⟨x, rfl⟩
  | error _ => exact absurd h (by simp [exceptOk])

theorem truthy_get_param_present {params : PyDict} {k : String} {v : PyVal}
    (h : get_param params k PyVal.none = .ok v) (ht : truthy v = true) :
    (lookupStr params k).isSome := by
  rcases get_param_paramFirst h with hp | ⟨_, hv⟩
  · unfold paramFirst at hp
    cases hl : lookupStr params k
    · rw [hl] at hp; exact absurd hp (by simp)
    · simp
  · exact absurd ht (by rw [hv]; simp [truthy])

theorem pyOrE_total {a : Except String PyVal} {b : Unit → Except String PyVal}
    (ha : ∃ v, a = .ok v) (hb : ∃ v, b () = .ok v) : ∃ v, pyOrE a b = .ok v := by
  obtain ⟨va, hva⟩ := ha
  obtain ⟨vb, hvb⟩ := hb
  unfold pyOrE
  rw [hva]
  by_cases ht : truthy va = true
  · exact ⟨va, by simp [ht]⟩
  · exact ⟨vb, by simp [ht, hvb]⟩

theorem resolve_network_total {params : PyDict} (hq : queryShaped params) :
    ∃ v, resolve_network params = .ok v := by
  obtain ⟨v1, h1, _⟩ := get_param_total hq "net" PyVal.none
  obtain ⟨v2, h2, _⟩ := get_param_total hq "type" (.str "tcp")
  exact pyOrE_total ⟨v1, h1⟩ ⟨v2, h2⟩

theorem resolve_security_total {params : PyDict} (hq : queryShaped params) :
    ∃ v, resolve_security params = .ok v := by
  obtain ⟨v1, h1, _⟩ := get_param_total hq "tls" PyVal.none
  obtain ⟨v2, h2, _⟩ := get_param_total hq "security" (.str "none")
  exact pyOrE_total ⟨v1, h1⟩ ⟨v2, h2⟩

theorem getparam_pyInt_ok {params : PyDict} {k : String} {n : Int}
    (hq : queryShaped params) (hik : intOK params k) :
    ∃ v m, get_param params k (.int n) = .ok v ∧ pyInt v = .ok m := by
  obtain ⟨v, hv, hcase⟩ := get_param_total hq k (.int n)
  rcases hcase with hd | ⟨s, hs⟩
  · exact ⟨v, n, hv, by rw [hd]; rfl⟩
  · rcases get_param_paramFirst hv with hp | ⟨_, hveq⟩
    · rw [hs] at hp
      obtain ⟨m, hm⟩ := exceptOk_exists (hik s hp)
      exact ⟨v, m, hv, by rw [hs]; exact hm⟩
    · rw [hs] at hveq
      exact absurd hveq (by simp)

/-! ## Totality of the Settings Builder sections -/

set_option maxRecDepth 4000 in
theorem sockopt_total {params : PyDict} (hq : queryShaped params) (hm : markOK params) :
    ∃ so, sockopt_fields params = .ok so := by
  obtain ⟨mv, hmv, hmc⟩ := get_param_total hq "mark" PyVal.none
  obtain ⟨fv, hfv, _⟩ := get_param_total hq "tcpFastOpen" PyVal.none
  obtain ⟨tv, htv, _⟩ := get_param_total hq "tproxy" PyVal.none
  by_cases ht : truthy mv = true
  · rcases hmc with hd | ⟨s, hs⟩
    · rw [hd] at ht; exact absurd ht (by simp [truthy])
    · have hne : s ≠ "" := by
        rw [hs] at ht; simpa [truthy] using ht
      have hpf : paramFirst params "mark" = some (.str s) := by
        rcases get_param_paramFirst hmv with hp | ⟨_, hveq⟩
        · rw [← hs]; exact hp
        · rw [hs] at hveq; exact absurd hveq (by simp)
      obtain ⟨m, hmint⟩ := exceptOk_exists (hm s hpf hne)
      have ht' : truthy (PyVal.str s) = true := by rw [← hs]; exact ht
      refine exceptOk_exists ?_
      simp only [sockopt_fields, hmv, hfv, htv, bind_ok_l, ht', hs, pyInt, hmint, if_true]
      rfl
  · refine exceptOk_exists ?_
    simp only [sockopt_fields, hmv, hfv, htv, bind_ok_l, ht, if_false]
    rfl

theorem transport_total {params : PyDict} (dh network : PyVal) (hq : queryShaped params)
    (hkcp : ∀ k ∈ kcpIntKeys, intOK params k) :
    ∃ tr, transport_fields params dh network = .ok tr := by
  unfold transport_fields
  by_cases h1 : pyEqStr network "tcp" = true
  · obtain ⟨htv, hht, _⟩ := get_param_total hq "headerType" (.str "none")
    by_cases hh : pyEqStr htv "http" = true
    · obtain ⟨hv, hhv, _⟩ := get_param_total hq "host" dh
      obtain ⟨pv, hpv, hpc⟩ := get_param_total hq "path" (.str "/")
      have hsplit : ∃ pieces, pySplitCommaVal pv = .ok pieces := by
        rcases hpc with hd | ⟨s, hs⟩
        · exact ⟨pySplitAll "/" ',', by rw [hd]; rfl⟩
        · exact ⟨pySplitAll s ',', by rw [hs]; rfl⟩
      obtain ⟨pieces, hpieces⟩ := hsplit
      refine exceptOk_exists ?_ ; simp [h1, hht, hh, hhv, hpv, hpieces, bind_ok_l, pure, Except.pure, exceptOk]
    · refine exceptOk_exists ?_ ; simp [h1, hht, hh, bind_ok_l, pure, Except.pure, exceptOk]
  · by_cases h2 : pyEqStr network "kcp" = true
    · obtain ⟨v1, m1, hv1, hm1⟩ :=
        getparam_pyInt_ok (n := 1350) hq (hkcp "mtu" (by simp [kcpIntKeys]))
      obtain ⟨v2, m2, hv2, hm2⟩ :=
        getparam_pyInt_ok (n := 50) hq (hkcp "tti" (by simp [kcpIntKeys]))
      obtain ⟨v3, m3, hv3, hm3⟩ :=
        getparam_pyInt_ok (n := 5) hq (hkcp "uplinkCapacity" (by simp [kcpIntKeys]))
      obtain ⟨v4, m4, hv4, hm4⟩ :=
        getparam_pyInt_ok (n := 20) hq (hkcp "downlinkCapacity" (by simp [kcpIntKeys]))
      obtain ⟨cv, hcv, _⟩ := get_param_total hq "congestion" (.bool false)
      obtain ⟨v5, m5, hv5, hm5⟩ :=
        getparam_pyInt_ok (n := 2) hq (hkcp "readBufferSize" (by simp [kcpIntKeys]))
      obtain ⟨v6, m6, hv6, hm6⟩ :=
        getparam_pyInt_ok (n := 2) hq (hkcp "writeBufferSize" (by simp [kcpIntKeys]))
      obtain ⟨hv, hhv, _⟩ := get_param_total hq "headerType" (.str "none")
      obtain ⟨sv, hsv, _⟩ := get_param_total hq "path" PyVal.none
      refine exceptOk_exists ?_ ; simp [h1, h2, hv1, hm1, hv2, hm2, hv3, hm3, hv4, hm4, hcv,
        hv5, hm5, hv6, hm6, hhv, hsv, bind_ok_l, pure, Except.pure, exceptOk]
    · by_cases h3 : pyEqStr network "ws" = true
      · obtain ⟨pv, hpv, _⟩ := get_param_total hq "path" (.str "/")
        obtain ⟨hv, hhv, _⟩ := get_param_total hq "host" dh
        refine exceptOk_exists ?_ ; simp [h1, h2, h3, hpv, hhv, bind_ok_l, pure, Except.pure, exceptOk]
      · by_cases h4 : pyEqStr network "h2" = true
        · obtain ⟨hv, hhv, _⟩ := get_param_total hq "host" dh
          obtain ⟨pv, hpv, _⟩ := get_param_total hq "path" (.str "/")
          refine exceptOk_exists ?_ ; simp [h1, h2, h3, h4, hhv, hpv, bind_ok_l, pure, Except.pure, exceptOk]
        · by_cases h5 : pyEqStr network "httpupgrade" = true
          · obtain ⟨pv, hpv, _⟩ := get_param_total hq "path" (.str "/")
            obtain ⟨hv, hhv, _⟩ := get_param_total hq "host" dh
            refine exceptOk_exists ?_ ; simp [h1, h2, h3, h4, h5, hpv, hhv, bind_ok_l, pure, Except.pure, exceptOk]
          · by_cases h6 : pyEqStr network "quic" = true
            · obtain ⟨qv, hqv, _⟩ := get_param_total hq "quicSecurity" (.str "none")
              obtain ⟨kv, hkv, _⟩ := get_param_total hq "key" (.str "")
              obtain ⟨hv, hhv, _⟩ := get_param_total hq "headerType" (.str "none")
              refine exceptOk_exists ?_ ; simp [h1, h2, h3, h4, h5, h6, hqv, hkv, hhv, bind_ok_l, pure, Except.pure, exceptOk]
            · by_cases h7 : pyEqStr network "grpc" = true
              · obtain ⟨sv, hsv, _⟩ := get_param_total hq "serviceName" (.str "")
                obtain ⟨mv, hmv, _⟩ := get_param_total hq "mode" PyVal.none
                refine exceptOk_exists ?_ ; simp [h1, h2, h3, h4, h5, h6, h7, hsv, hmv, bind_ok_l, pure, Except.pure, exceptOk]
              · refine exceptOk_exists ?_ ; simp [h1, h2, h3, h4, h5, h6, h7, pure, Except.pure, exceptOk]

theorem security_settings_total {params : PyDict} (dh security : PyVal)
    (hq : queryShaped params) :
    ∃ o, security_settings_tlsxtls params dh security = .ok o := by
  obtain ⟨peer, hpeer, _⟩ := get_param_total hq "peer" dh
  obtain ⟨sni, hsni, _⟩ := get_param_total hq "sni" peer
  obtain ⟨alpn, halpn, hac⟩ := get_param_total hq "alpn" (.str "")
  obtain ⟨fp, hfp, _⟩ := get_param_total hq "fp" (.str "")
  obtain ⟨ai, hai, _⟩ := get_param_total hq "allowInsecure" (.bool false)
  by_cases hta : truthy alpn = true
  · have hsplit : ∃ pieces, pySplitCommaVal alpn = .ok pieces := by
      rcases hac with hd | ⟨s, hs⟩
      · exact ⟨pySplitAll "" ',', by rw [hd]; rfl⟩
      · exact ⟨pySplitAll s ',', by rw [hs]; rfl⟩
    obtain ⟨pieces, hpieces⟩ := hsplit
    by_cases hx : pyEqStr security "xtls" = true
    · obtain ⟨fl, hfl, _⟩ := get_param_total hq "flow" PyVal.none
      by_cases htf : truthy fl = true <;>
        · refine exceptOk_exists ?_
          simp [security_settings_tlsxtls, hpeer, hsni, halpn, hfp, hai, hta, hpieces, hx,
            hfl, htf, bind_ok_l, pure, Except.pure, exceptOk]
    · refine exceptOk_exists ?_
      simp [security_settings_tlsxtls, hpeer, hsni, halpn, hfp, hai, hta, hpieces, hx,
        bind_ok_l, pure, Except.pure, exceptOk]
  · by_cases hx : pyEqStr security "xtls" = true
    · obtain ⟨fl, hfl, _⟩ := get_param_total hq "flow" PyVal.none
      by_cases htf : truthy fl = true <;>
        · refine exceptOk_exists ?_
          simp [security_settings_tlsxtls, hpeer, hsni, halpn, hfp, hai, hta, hx, hfl, htf,
            bind_ok_l, pure, Except.pure, exceptOk]
    · refine exceptOk_exists ?_
      simp [security_settings_tlsxtls, hpeer, hsni, halpn, hfp, hai, hta, hx,
        bind_ok_l, pure, Except.pure, exceptOk]

theorem security_total {params : PyDict} (dh security : PyVal) (hq : queryShaped params) :
    ∃ se, security_fields params dh security = .ok se := by
  unfold security_fields
  by_cases h1 : (pyEqStr security "tls" || pyEqStr security "xtls") = true
  · obtain ⟨o, ho⟩ := security_settings_total dh security hq
    refine exceptOk_exists ?_
    simp only [h1, if_true, ho, bind_ok_l]
    rfl
  · by_cases h2 : pyEqStr security "reality" = true
    · obtain ⟨peer, hpeer, _⟩ := get_param_total hq "peer" dh
      obtain ⟨sni, hsni, _⟩ := get_param_total hq "sni" peer
      obtain ⟨fpv, hfpv, _⟩ := get_param_total hq "fp" (.str "chrome")
      obtain ⟨pbk, hpbk, _⟩ := get_param_total hq "pbk" (.str "")
      obtain ⟨sid, hsid, _⟩ := get_param_total hq "sid" (.str "")
      obtain ⟨spx, hspx, _⟩ := get_param_total hq "spx" (.str "/")
      refine exceptOk_exists ?_ ; simp [h1, h2, hpeer, hsni, hfpv, hpbk, hsid, hspx, bind_ok_l, pure, Except.pure, exceptOk]
    · refine exceptOk_exists ?_ ; simp [h1, h2, pure, Except.pure, exceptOk]

/-! ## C3 — the builder is *not* total: invalid integers raise; it is
total once the integer parameters are well formed -/

/-- **C3, counterexample.**  A non-integer `mark` makes
`build_stream_settings` raise (`int("abc")`), instead of falling back to
a default. -/
theorem builder_raises_on_bad_mark :
    exceptOk (build_stream_settings [("mark", PyVal.list [PyVal.str "abc"])]
      (PyVal.str "h")) = false := rfl

/-- **C3, amended.**  `build_stream_settings` is pure, and it is total on
every query-shaped parameter mapping (values are strings or nonempty
string lists) whose integer-valued parameters are well formed: a truthy
`mark` must be a decimal integer, and the six kcp tuning parameters must
be decimal integers whenever present; missing parameters fall back to the
documented defaults.  A non-integer value for one of these raises instead
of falling back. -/
theorem builder_total_on_wellformed_ints :
    ∀ (params : PyDict) (dh : PyVal), queryShaped params → markOK params →
      (∀ k ∈ kcpIntKeys, intOK params k) →
      ∃ ss, build_stream_settings params dh = .ok ss := by
  intro params dh hq hm hkcp
  obtain ⟨net, hnet⟩ := resolve_network_total hq
  obtain ⟨sec, hsec⟩ := resolve_security_total hq
  obtain ⟨so, hso⟩ := sockopt_total hq hm
  obtain ⟨tr, htr⟩ := transport_total dh net hq hkcp
  obtain ⟨se, hse⟩ := security_total dh sec hq
  refine exceptOk_exists ?_ ; simp [build_stream_settings, hnet, hsec, hso, htr, hse, bind_ok_l, pure, Except.pure, exceptOk]

/-- Witness for the amended C3: a kcp link with a well-formed `mtu`. -/
theorem builder_total_on_wellformed_ints_witness :
    ∃ ss, build_stream_settings
      [("net", PyVal.list [PyVal.str "kcp"]), ("mtu", PyVal.list [PyVal.str "900"])]
      (PyVal.str "h") = .ok ss :=
  builder_total_on_wellformed_ints _ (PyVal.str "h")
    (by
      intro kv hkv
      rcases List.mem_cons.mp hkv with heq | hkv
      · rw [heq]; rfl
      rcases List.mem_cons.mp hkv with heq | hkv
      · rw [heq]; rfl
      · exact absurd hkv (List.not_mem_nil kv))
    (by intro s hs; simp [paramFirst, lookupStr] at hs)
    (by
      intro k hk s hs
      fin_cases hk <;> simp [paramFirst, lookupStr] at hs
      rw [← hs]
      decide)

/-! ## Structure of the built StreamSettings (C7) -/

theorem lookupStr_append (a b : PyDict) (k : String) :
    lookupStr (a ++ b) k
      = match lookupStr a k with
        | some v => some v
        | Option.none => lookupStr b k := by
  induction a with
  | nil => simp [lookupStr]
  | cons kv rest ih =>
      obtain ⟨k', v⟩ := kv
      rw [List.cons_append]
      by_cases he : k' = k
      · simp [lookupStr, he]
      · simp only [lookupStr, if_neg he, ih]

theorem build_inv {params : PyDict} {dh : PyVal} {ss : PyDict}
    (h : build_stream_settings params dh = .ok ss) :
    ∃ network security so tr se,
      resolve_network params = .ok network ∧
      resolve_security params = .ok security ∧
      sockopt_fields params = .ok so ∧
      transport_fields params dh network = .ok tr ∧
      security_fields params dh security = .ok se ∧
      ss = [("network", network), ("security", security)]
            ++ (if so.isEmpty then ([] : PyDict) else [("sockopt", PyVal.dict so)])
            ++ tr ++ se := by
  unfold build_stream_settings at h
  obtain ⟨network, hn, h⟩ := except_bind_ok h
  obtain ⟨security, hs, h⟩ := except_bind_ok h
  obtain ⟨so, hso, h⟩ := except_bind_ok h
  obtain ⟨tr, htr, h⟩ := except_bind_ok h
  obtain ⟨se, hse, h⟩ := except_bind_ok h
  exact ⟨network, security, so, tr, se, hn, hs, hso, htr, hse,
    by simpa [pure, Except.pure] using h.symm⟩

theorem sockopt_nonempty_source {params : PyDict} {so : PyDict}
    (h : sockopt_fields params = .ok so) (hne : so ≠ []) :
    (lookupStr params "mark").isSome = true ∨
    (lookupStr params "tcpFastOpen").isSome = true ∨
    (lookupStr params "tproxy").isSome = true := by
  unfold sockopt_fields at h
  obtain ⟨mv, hmv, h⟩ := except_bind_ok h
  by_cases ht : truthy mv = true
  · exact Or.inl (truthy_get_param_present hmv ht)
  · simp only [ht, if_false] at h
    obtain ⟨part1, hp1, h⟩ := except_bind_ok h
    have hp1e : part1 = [] := by simpa [pure, Except.pure] using hp1.symm
    subst hp1e
    obtain ⟨fv, hfv, h⟩ := except_bind_ok h
    obtain ⟨tv, htv, h⟩ := except_bind_ok h
    by_cases htf : truthy fv = true
    · exact Or.inr (Or.inl (truthy_get_param_present hfv htf))
    · by_cases htt : truthy tv = true
      · exact Or.inr (Or.inr (truthy_get_param_present htv htt))
      · exfalso
        apply hne
        simp only [htf, htt, if_false, List.append_nil, List.nil_append] at h
        simpa [pure, Except.pure] using h.symm

theorem transport_fields_shape {params : PyDict} {dh network : PyVal} {tr : PyDict}
    (h : transport_fields params dh network = .ok tr) :
    tr = [] ∨ ∃ k v, tr = [(k, v)] ∧ k ∈ transportKeys := by
  unfold transport_fields at h
  by_cases h1 : pyEqStr network "tcp" = true
  · simp only [h1, if_true] at h
    obtain ⟨htv, hht, h⟩ := except_bind_ok h
    by_cases hh : pyEqStr htv "http" = true
    · simp only [hh, if_true] at h
      obtain ⟨hv, _, h⟩ := except_bind_ok h
      obtain ⟨pv, _, h⟩ := except_bind_ok h
      obtain ⟨pieces, _, h⟩ := except_bind_ok h
      exact Or.inr ⟨"tcpSettings", _, by simpa [pure, Except.pure] using h.symm,
        by simp [transportKeys]⟩
    · simp only [hh, if_false] at h
      exact Or.inl (by simpa [pure, Except.pure] using h.symm)
  · simp only [h1, if_false] at h
    by_cases h2 : pyEqStr network "kcp" = true
    · simp only [h2, if_true] at h
      obtain ⟨v1, _, h⟩ := except_bind_ok h
      obtain ⟨m1, _, h⟩ := except_bind_ok h
      obtain ⟨v2, _, h⟩ := except_bind_ok h
      obtain ⟨m2, _, h⟩ := except_bind_ok h
      obtain ⟨v3, _, h⟩ := except_bind_ok h
      obtain ⟨m3, _, h⟩ := except_bind_ok h
      obtain ⟨v4, _, h⟩ := except_bind_ok h
      obtain ⟨m4, _, h⟩ := except_bind_ok h
      obtain ⟨cv, _, h⟩ := except_bind_ok h
      obtain ⟨v5, _, h⟩ := except_bind_ok h
      obtain ⟨m5, _, h⟩ := except_bind_ok h
      obtain ⟨v6, _, h⟩ := except_bind_ok h
      obtain ⟨m6, _, h⟩ := except_bind_ok h
      obtain ⟨hv, _, h⟩ := except_bind_ok h
      obtain ⟨sv, _, h⟩ := except_bind_ok h
      exact Or.inr ⟨"kcpSettings", _, by simpa [pure, Except.pure] using h.symm,
        by simp [transportKeys]⟩
    · simp only [h2, if_false] at h
      by_cases h3 : pyEqStr network "ws" = true
      · simp only [h3, if_true] at h
        obtain ⟨pv, _, h⟩ := except_bind_ok h
        obtain ⟨hv, _, h⟩ := except_bind_ok h
        exact Or.inr ⟨"wsSettings", _, by simpa [pure, Except.pure] using h.symm,
          by simp [transportKeys]⟩
      · simp only [h3, if_false] at h
        by_cases h4 : pyEqStr network "h2" = true
        · simp only [h4, if_true] at h
          obtain ⟨hv, _, h⟩ := except_bind_ok h
          obtain ⟨pv, _, h⟩ := except_bind_ok h
          exact Or.inr ⟨"httpSettings", _, by simpa [pure, Except.pure] using h.symm,
            by simp [transportKeys]⟩
        · simp only [h4, if_false] at h
          by_cases h5 : pyEqStr network "httpupgrade" = true
          · simp only [h5, if_true] at h
            obtain ⟨pv, _, h⟩ := except_bind_ok h
            obtain ⟨hv, _, h⟩ := except_bind_ok h
            exact Or.inr ⟨"httpUpgradeSettings", _,
              by simpa [pure, Except.pure] using h.symm, by simp [transportKeys]⟩
          · simp only [h5, if_false] at h
            by_cases h6 : pyEqStr network "quic" = true
            · simp only [h6, if_true] at h
              obtain ⟨qv, _, h⟩ := except_bind_ok h
              obtain ⟨kv, _, h⟩ := except_bind_ok h
              obtain ⟨hv, _, h⟩ := except_bind_ok h
              exact Or.inr ⟨"quicSettings", _,
                by simpa [pure, Except.pure] using h.symm, by simp [transportKeys]⟩
            · simp only [h6, if_false] at h
              by_cases h7 : pyEqStr network "grpc" = true
              · simp only [h7, if_true] at h
                obtain ⟨sv, _, h⟩ := except_bind_ok h
                obtain ⟨mv, _, h⟩ := except_bind_ok h
                exact Or.inr ⟨"grpcSettings", _,
                  by simpa [pure, Except.pure] using h.symm, by simp [transportKeys]⟩
              · simp only [h7, if_false] at h
                exact Or.inl (by simpa [pure, Except.pure] using h.symm)

theorem security_fields_shape {params : PyDict} {dh security : PyVal} {se : PyDict}
    (h : security_fields params dh security = .ok se) :
    se = [] ∨ ∃ k v, se = [(k, v)] ∧ k ∈ securityKeys := by
  unfold security_fields at h
  by_cases h1 : (pyEqStr security "tls" || pyEqStr security "xtls") = true
  · simp only [h1, if_true] at h
    obtain ⟨o, ho, h⟩ := except_bind_ok h
    refine Or.inr ⟨pyStrOf security ++ "Settings", .dict o,
      by simpa [pure, Except.pure] using h.symm, ?_⟩
    rcases Bool.or_eq_true _ _ |>.mp h1 with htls | hx
    · rw [pyEqStr_true htls]; simp [pyStrOf, securityKeys]
    · rw [pyEqStr_true hx]; simp [pyStrOf, securityKeys]
  · simp only [h1, if_false] at h
    by_cases h2 : pyEqStr security "reality" = true
    · simp only [h2, if_true] at h
      obtain ⟨peer, _, h⟩ := except_bind_ok h
      obtain ⟨sni, _, h⟩ := except_bind_ok h
      obtain ⟨fpv, _, h⟩ := except_bind_ok h
      obtain ⟨pbk, _, h⟩ := except_bind_ok h
      obtain ⟨sid, _, h⟩ := except_bind_ok h
      obtain ⟨spx, _, h⟩ := except_bind_ok h
      exact Or.inr ⟨"realitySettings", _, by simpa [pure, Except.pure] using h.symm,
        by simp [securityKeys]⟩
    · simp only [h2, if_false] at h
      exact Or.inl (by simpa [pure, Except.pure] using h.symm)

theorem mem_securityKeys_props {k : String} (h : k ∈ securityKeys) :
    k ∉ transportKeys ∧ k ≠ "sockopt" := by
  simp [securityKeys] at h
  rcases h with rfl | rfl | rfl <;> exact ⟨by simp [transportKeys], by simp⟩

theorem mem_transportKeys_props {k : String} (h : k ∈ transportKeys) :
    k ∉ securityKeys ∧ k ≠ "sockopt" := by
  simp [transportKeys] at h
  rcases h with rfl | rfl | rfl | rfl | rfl | rfl | rfl <;>
    exact ⟨by simp [securityKeys], by simp⟩

/-- **C7.**  Every successfully built StreamSettings dict carries the
mandatory `network` and `security` keys, at most one transport-specific
sub-block, at most one security-specific sub-block, and a `sockopt`
block only if at least one of the `mark`, `tcpFastOpen` or `tproxy`
parameters was supplied. -/
theorem stream_settings_structure :
    ∀ (params : PyDict) (dh : PyVal) (ss : PyDict),
      build_stream_settings params dh = .ok ss →
      (lookupStr ss "network").isSome = true ∧
      (lookupStr ss "security").isSome = true ∧
      (ss.filter (fun kv => kv.1 ∈ transportKeys)).length ≤ 1 ∧
      (ss.filter (fun kv => kv.1 ∈ securityKeys)).length ≤ 1 ∧
      ((lookupStr ss "sockopt").isSome = true →
        (lookupStr params "mark").isSome = true ∨
        (lookupStr params "tcpFastOpen").isSome = true ∨
        (lookupStr params "tproxy").isSome = true) := by
  intro params dh ss hb
  obtain ⟨net, sec, so, tr, se, hn, hsc, hso, htr, hse, hsseq⟩ := build_inv hb
  have htrs := transport_fields_shape htr
  have hses := security_fields_shape hse
  subst hsseq
  refine ⟨?_, ?_, ?_, ?_, ?_⟩
  · simp [lookupStr_append, lookupStr]
  · simp [lookupStr_append, lookupStr]
  · have hbase : ([("network", net), ("security", sec)].filter
        (fun kv => kv.1 ∈ transportKeys)) = [] := by simp [transportKeys]
    have hsop : ((if so.isEmpty then ([] : PyDict) else [("sockopt", PyVal.dict so)]).filter
        (fun kv => kv.1 ∈ transportKeys)) = [] := by
      by_cases hempty : so.isEmpty <;> simp [hempty, transportKeys]
    have hsef : (se.filter (fun kv => kv.1 ∈ transportKeys)) = [] := by
      rcases hses with rfl | ⟨k, v, rfl, hk⟩
      · rfl
      · simp [(mem_securityKeys_props hk).1]
    have htrf : (tr.filter (fun kv => kv.1 ∈ transportKeys)).length ≤ 1 := by
      rcases htrs with rfl | ⟨k, v, rfl, hk⟩
      · simp
      · by_cases hp : k ∈ transportKeys <;> simp [hp]
    simp only [List.filter_append, hbase, hsop, hsef, List.length_append,
      List.nil_append, List.append_nil, List.length_nil]
    omega
  · have hbase : ([("network", net), ("security", sec)].filter
        (fun kv => kv.1 ∈ securityKeys)) = [] := by simp [securityKeys]
    have hsop : ((if so.isEmpty then ([] : PyDict) else [("sockopt", PyVal.dict so)]).filter
        (fun kv => kv.1 ∈ securityKeys)) = [] := by
      by_cases hempty : so.isEmpty <;> simp [hempty, securityKeys]
    have htrf : (tr.filter (fun kv => kv.1 ∈ securityKeys)) = [] := by
      rcases htrs with rfl | ⟨k, v, rfl, hk⟩
      · rfl
      · simp [(mem_transportKeys_props hk).1]
    have hsef : (se.filter (fun kv => kv.1 ∈ securityKeys)).length ≤ 1 := by
      rcases hses with rfl | ⟨k, v, rfl, hk⟩
      · simp
      · by_cases hp : k ∈ securityKeys <;> simp [hp]
    simp only [List.filter_append, hbase, hsop, htrf, List.length_append,
      List.nil_append, List.append_nil, List.length_nil]
    omega
  · intro hsk
    by_cases hempty : so.isEmpty
    · exfalso
      have htrn : lookupStr tr "sockopt" = Option.none := by
        rcases htrs with rfl | ⟨k, v, rfl, hk⟩
        · rfl
        · simp [lookupStr, (mem_transportKeys_props hk).2]
      have hsen : lookupStr se "sockopt" = Option.none := by
        rcases hses with rfl | ⟨k, v, rfl, hk⟩
        · rfl
        · simp [lookupStr, (mem_securityKeys_props hk).2]
      simp [lookupStr_append, lookupStr, hempty, htrn, hsen] at hsk
    · have hne : so ≠ [] := by
        intro hh
        rw [hh] at hempty
        exact hempty rfl
      exact sockopt_nonempty_source hso hne

/-- Witness for C7 at a parameter set that produces all three optional
blocks. -/
theorem stream_settings_structure_witness :
    (lookupStr ssWitness "network").isSome = true ∧
    (lookupStr ssWitness "security").isSome = true ∧
    (ssWitness.filter (fun kv => kv.1 ∈ transportKeys)).length ≤ 1 ∧
    (ssWitness.filter (fun kv => kv.1 ∈ securityKeys)).length ≤ 1 ∧
    ((lookupStr ssWitness "sockopt").isSome = true →
      (lookupStr paramsWitness "mark").isSome = true ∨
      (lookupStr paramsWitness "tcpFastOpen").isSome = true ∨
      (lookupStr paramsWitness "tproxy").isSome = true) :=
  stream_settings_structure paramsWitness (PyVal.str "h") ssWitness (by rfl)

/-! ## C6 — the tls/xtls security sub-block -/

/-- Inversion of the `tls`/`xtls` security-settings construction: the
dict is the `serverName`/`allowInsecure` base followed by the optional
`alpn`, `fingerprint` and (xtls-only) `flow` entries. -/
theorem security_settings_inv {params : PyDict} {dh security : PyVal} {o : PyDict}
    (h : security_settings_tlsxtls params dh security = .ok o) :
    ∃ (peer sni alpn fp ai : PyVal) (alpnPart flowPart : PyDict),
      get_param params "peer" dh = .ok peer ∧
      get_param params "sni" peer = .ok sni ∧
      get_param params "alpn" (.str "") = .ok alpn ∧
      get_param params "fp" (.str "") = .ok fp ∧
      get_param params "allowInsecure" (.bool false) = .ok ai ∧
      (truthy alpn = false → alpnPart = []) ∧
      (∀ a, alpn = .str a → truthy alpn = true →
        alpnPart = [("alpn", PyVal.list ((pySplitAll a ',').map PyVal.str))]) ∧
      (truthy alpn = true → ∃ xs, alpnPart = [("alpn", PyVal.list xs)]) ∧
      (pyEqStr security "xtls" = false → flowPart = []) ∧
      (pyEqStr security "xtls" = true →
        ∃ fv, get_param params "flow" PyVal.none = .ok fv ∧
          flowPart = (if truthy fv then [("flow", fv)] else [])) ∧
      o = [("serverName", sni), ("allowInsecure", .bool (pyInTrueTrue ai))] ++ alpnPart
          ++ (if truthy fp then [("fingerprint", fp)] else []) ++ flowPart := by
  unfold security_settings_tlsxtls at h
  obtain ⟨peer, hpeer, h⟩ := except_bind_ok h
  obtain ⟨sni, hsni, h⟩ := except_bind_ok h
  obtain ⟨alpn, halpn, h⟩ := except_bind_ok h
  obtain ⟨fp, hfp, h⟩ := except_bind_ok h
  obtain ⟨ai, hai, h⟩ := except_bind_ok h
  refine ⟨peer, sni, alpn, fp, ai, ?_⟩
  by_cases hta : truthy alpn = true
  · simp only [hta, if_true] at h
    obtain ⟨pieces, hpieces, h⟩ := except_bind_ok h
    obtain ⟨withAlpn, hwa, h⟩ := except_bind_ok h
    have hwa' : withAlpn = [("serverName", sni),
        ("allowInsecure", .bool (pyInTrueTrue ai)),
        ("alpn", PyVal.list (pieces.map PyVal.str))] := by
      simpa [pure, Except.pure] using hwa.symm
    subst hwa'
    have halpnPart : ∀ a, alpn = .str a → truthy alpn = true →
        ([("alpn", PyVal.list (pieces.map PyVal.str))] : PyDict)
          = [("alpn", PyVal.list ((pySplitAll a ',').map PyVal.str))] := by
      intro a ha _
      rw [ha] at hpieces
      have hinj : pySplitAll a ',' = pieces := by
        have h' : Except.ok (pySplitAll a ',') = (.ok pieces : Except String (List String)) :=
          hpieces
        injection h'
      rw [hinj]
    by_cases hx : pyEqStr security "xtls" = true
    · simp only [hx, if_true] at h
      obtain ⟨fv, hfv, h⟩ := except_bind_ok h
      by_cases htf : truthy fv = true
      · simp only [htf, if_true] at h
        refine ⟨[("alpn", PyVal.list (pieces.map PyVal.str))], [("flow", fv)],
          hpeer, hsni, halpn, hfp, hai,
          fun hc => absurd hta (by rw [hc]; simp), halpnPart,
          fun _ => ⟨pieces.map PyVal.str, rfl⟩,
          fun hc => absurd hx (by rw [hc]; simp),
          fun _ => ⟨fv, hfv, by simp [htf]⟩, ?_⟩
        by_cases htp : truthy fp = true <;> simp only [htp, if_true, if_false] at h ⊢ <;>
          simpa [pure, Except.pure] using h.symm
      · simp only [htf, if_false] at h
        refine ⟨[("alpn", PyVal.list (pieces.map PyVal.str))], [],
          hpeer, hsni, halpn, hfp, hai,
          fun hc => absurd hta (by rw [hc]; simp), halpnPart,
          fun _ => ⟨pieces.map PyVal.str, rfl⟩,
          fun hc => absurd hx (by rw [hc]; simp),
          fun _ => ⟨fv, hfv, by simp [htf]⟩, ?_⟩
        by_cases htp : truthy fp = true <;> simp only [htp, if_true, if_false] at h ⊢ <;>
          simpa [pure, Except.pure] using h.symm
    · simp only [hx, if_false] at h
      refine ⟨[("alpn", PyVal.list (pieces.map PyVal.str))], [],
        hpeer, hsni, halpn, hfp, hai,
        fun hc => absurd hta (by rw [hc]; simp), halpnPart,
        fun _ => ⟨pieces.map PyVal.str, rfl⟩,
        fun _ => rfl, fun hc => absurd hc (by simp [hx]), ?_⟩
      by_cases htp : truthy fp = true <;> simp only [htp, if_true, if_false] at h ⊢ <;>
        simpa [pure, Except.pure] using h.symm
  · simp only [hta, if_false] at h
    obtain ⟨base, hbase, h⟩ := except_bind_ok h
    have hbase' : base = [("serverName", sni),
        ("allowInsecure", .bool (pyInTrueTrue ai))] := by
      simpa [pure, Except.pure] using hbase.symm
    subst hbase'
    by_cases hx : pyEqStr security "xtls" = true
    · simp only [hx, if_true] at h
      obtain ⟨fv, hfv, h⟩ := except_bind_ok h
      by_cases htf : truthy fv = true
      · simp only [htf, if_true] at h
        refine ⟨[], [("flow", fv)], hpeer, hsni, halpn, hfp, hai, fun _ => rfl,
          fun a _ htt => absurd htt (by simp [hta]),
          fun htt => absurd htt hta,
          fun hc => absurd hx (by rw [hc]; simp),
          fun _ => ⟨fv, hfv, by simp [htf]⟩, ?_⟩
        by_cases htp : truthy fp = true <;> simp only [htp, if_true, if_false] at h ⊢ <;>
          simpa [pure, Except.pure] using h.symm
      · simp only [htf, if_false] at h
        refine ⟨[], [], hpeer, hsni, halpn, hfp, hai, fun _ => rfl,
          fun a _ htt => absurd htt (by simp [hta]),
          fun htt => absurd htt hta,
          fun hc => absurd hx (by rw [hc]; simp),
          fun _ => ⟨fv, hfv, by simp [htf]⟩, ?_⟩
        by_cases htp : truthy fp = true <;> simp only [htp, if_true, if_false] at h ⊢ <;>
          simpa [pure, Except.pure] using h.symm
    · simp only [hx, if_false] at h
      refine ⟨[], [], hpeer, hsni, halpn, hfp, hai, fun _ => rfl,
        fun a _ htt => absurd htt (by simp [hta]),
        fun htt => absurd htt hta,
        fun _ => rfl, fun hc => absurd hc (by simp [hx]), ?_⟩
      by_cases htp : truthy fp = true <;> simp only [htp, if_true, if_false] at h ⊢ <;>
        simpa [pure, Except.pure] using h.symm

/-- The claim-level properties of the `security_settings` dict: the
`serverName` resolution chain, the `allowInsecure` default, and the
conditional `alpn`, `fingerprint` and `flow` entries. -/
theorem security_block_props {params : PyDict} {dh sec : PyVal} {o : PyDict}
    (ho : security_settings_tlsxtls params dh sec = .ok o) :
    lookupStr o "serverName"
      = some ((paramFirst params "sni").getD ((paramFirst params "peer").getD dh)) ∧
    (∃ b : Bool, lookupStr o "allowInsecure" = some (.bool b) ∧
      (paramFirst params "allowInsecure" = Option.none → b = false)) ∧
    (∀ a : String, (paramFirst params "alpn").getD (.str "") = .str a →
      (a = "" → lookupStr o "alpn" = Option.none) ∧
      (a ≠ "" → lookupStr o "alpn" = some (.list ((pySplitAll a ',').map PyVal.str)))) ∧
    (∀ f : String, (paramFirst params "fp").getD (.str "") = .str f →
      (f = "" → lookupStr o "fingerprint" = Option.none) ∧
      (f ≠ "" → lookupStr o "fingerprint" = some (.str f))) ∧
    (pyEqStr sec "xtls" = false → lookupStr o "flow" = Option.none) ∧
    (pyEqStr sec "xtls" = true →
      (paramFirst params "flow" = Option.none → lookupStr o "flow" = Option.none) ∧
      (∀ fv, paramFirst params "flow" = some fv →
        (truthy fv = true → lookupStr o "flow" = some fv) ∧
        (truthy fv = false → lookupStr o "flow" = Option.none))) := by
  obtain ⟨peer, sni, alpn, fp, ai, alpnPart, flowPart, hpeer, hsni, halpn, hfp, hai,
    haF, haS, haSh, hfF, hfT, hoeq⟩ := security_settings_inv ho
  have ha_shape : alpnPart = [] ∨ ∃ xs, alpnPart = [("alpn", PyVal.list xs)] := by
    by_cases hta : truthy alpn = true
    · exact Or.inr (haSh hta)
    · exact Or.inl (haF (by simpa using hta))
  have hf_shape : flowPart = [] ∨ ∃ fv, flowPart = [("flow", fv)] := by
    by_cases hx : pyEqStr sec "xtls" = true
    · obtain ⟨fv, _, hfl⟩ := hfT hx
      by_cases htf : truthy fv = true
      · exact Or.inr ⟨fv, by rw [hfl, if_pos htf]⟩
      · exact Or.inl (by rw [hfl, if_neg htf])
    · exact Or.inl (hfF (by simpa using hx))
  have hfpP_alpn : lookupStr (if truthy fp = true then [("fingerprint", fp)] else [])
      "alpn" = Option.none := by
    by_cases htp : truthy fp = true <;> simp [htp, lookupStr]
  have hflP_alpn : lookupStr flowPart "alpn" = Option.none := by
    rcases hf_shape with rfl | ⟨fv, rfl⟩ <;> simp [lookupStr]
  have hflP_fp : lookupStr flowPart "fingerprint" = Option.none := by
    rcases hf_shape with rfl | ⟨fv, rfl⟩ <;> simp [lookupStr]
  have haP_fp : lookupStr alpnPart "fingerprint" = Option.none := by
    rcases ha_shape with rfl | ⟨xs, rfl⟩ <;> simp [lookupStr]
  have haP_flow : lookupStr alpnPart "flow" = Option.none := by
    rcases ha_shape with rfl | ⟨xs, rfl⟩ <;> simp [lookupStr]
  have hfpP_flow : lookupStr (if truthy fp = true then [("fingerprint", fp)] else [])
      "flow" = Option.none := by
    by_cases htp : truthy fp = true <;> simp [htp, lookupStr]
  refine ⟨?_, ?_, ?_, ?_, ?_, ?_⟩
  · rw [hoeq]
    have hres : sni = (paramFirst params "sni").getD ((paramFirst params "peer").getD dh) := by
      rcases get_param_paramFirst hsni with hp | ⟨hp, hveq⟩
      · rw [hp]; rfl
      · rw [hp]
        rcases get_param_paramFirst hpeer with hp2 | ⟨hp2, hveq2⟩
        · rw [hp2]; simp [hveq]
        · rw [hp2]; simp [hveq, hveq2]
    simp [lookupStr, hres]
  · refine ⟨pyInTrueTrue ai, by rw [hoeq]; simp [lookupStr], ?_⟩
    intro habs
    rcases get_param_paramFirst hai with hp | ⟨_, hveq⟩
    · rw [habs] at hp; exact absurd hp (by simp)
    · rw [hveq]; rfl
  · intro a ha
    rcases get_param_paramFirst halpn with hp | ⟨hp, hveq⟩
    · rw [hp] at ha
      simp at ha
      constructor
      · intro ha0
        have hta : truthy alpn = false := by rw [ha, ha0]; rfl
        rw [hoeq, haF hta]
        simp [lookupStr, lookupStr_append, hfpP_alpn, hflP_alpn]
      · intro hne
        have hta : truthy alpn = true := by
          rw [ha]; simpa [truthy] using hne
        rw [hoeq, haS a ha hta]
        simp [lookupStr, lookupStr_append]
    · rw [hp] at ha
      simp at ha
      constructor
      · intro _
        have hta : truthy alpn = false := by rw [hveq]; rfl
        rw [hoeq, haF hta]
        simp [lookupStr, lookupStr_append, hfpP_alpn, hflP_alpn]
      · intro hne
        exact absurd ha.symm hne
  · intro f hf
    rcases get_param_paramFirst hfp with hp | ⟨hp, hveq⟩
    · rw [hp] at hf
      simp at hf
      constructor
      · intro hf0
        have htp : truthy fp = false := by rw [hf, hf0]; rfl
        rw [hoeq, htp]
        simp [lookupStr, lookupStr_append, haP_fp, hflP_fp]
      · intro hne
        have htp : truthy fp = true := by
          rw [hf]; simpa [truthy] using hne
        rw [hoeq, htp, hf]
        simp [lookupStr, lookupStr_append, haP_fp]
    · rw [hp] at hf
      simp at hf
      constructor
      · intro _
        have htp : truthy fp = false := by rw [hveq]; rfl
        rw [hoeq, htp]
        simp [lookupStr, lookupStr_append, haP_fp, hflP_fp]
      · intro hne
        exact absurd hf.symm hne
  · intro hx
    rw [hoeq, hfF hx]
    by_cases htp : truthy fp = true <;>
      simp [htp, lookupStr, lookupStr_append, haP_flow]
  · intro hx
    obtain ⟨fv, hfv, hfl⟩ := hfT hx
    constructor
    · intro habs
      rcases get_param_paramFirst hfv with hp | ⟨_, hveq⟩
      · rw [habs] at hp; exact absurd hp (by simp)
      · have htf : truthy fv = false := by rw [hveq]; rfl
        have hflE : flowPart = [] := by rw [hfl, if_neg (by simp [htf])]
        rw [hoeq, hflE]
        by_cases htp : truthy fp = true <;>
          simp [htp, lookupStr, lookupStr_append, haP_flow]
    · intro fv0 hfv0
      have hfveq : fv = fv0 := by
        rcases get_param_paramFirst hfv with hp | ⟨hp, _⟩
        · rw [hfv0] at hp; injection hp with hp; exact hp.symm
        · rw [hfv0] at hp; exact absurd hp (by simp)
      subst hfveq
      constructor
      · intro htf
        have hflE : flowPart = [("flow", fv)] := by rw [hfl, if_pos htf]
        rw [hoeq, hflE]
        by_cases htp : truthy fp = true <;>
          simp [htp, lookupStr, lookupStr_append, haP_flow]
      · intro htf
        have hflE : flowPart = [] := by rw [hfl, if_neg (by simp [htf])]
        rw [hoeq, hflE]
        by_cases htp : truthy fp = true <;>
          simp [htp, lookupStr, lookupStr_append, haP_flow]

/-- **C6.**  When the resolved security is `tls` or `xtls`,
`build_stream_settings` attaches a sub-block under the key
`<security>Settings` in which `serverName` is resolved from the `sni`
parameter, else the `peer` parameter, else the default host;
`allowInsecure` defaults to false; a non-empty `alpn` is comma-split
into a list; `fingerprint` is taken from `fp` only when non-empty; and,
for `xtls` only, `flow` is attached exactly when the `flow` parameter is
present and truthy. -/
theorem tls_xtls_security_block :
    ∀ (params : PyDict) (dh : PyVal) (ss : PyDict) (sec : PyVal),
      build_stream_settings params dh = .ok ss →
      resolve_security params = .ok sec →
      (pyEqStr sec "tls" = true ∨ pyEqStr sec "xtls" = true) →
      ∃ o : PyDict,
        lookupStr ss (pyStrOf sec ++ "Settings") = some (.dict o) ∧
        lookupStr o "serverName"
          = some ((paramFirst params "sni").getD ((paramFirst params "peer").getD dh)) ∧
        (∃ b : Bool, lookupStr o "allowInsecure" = some (.bool b) ∧
          (paramFirst params "allowInsecure" = Option.none → b = false)) ∧
        (∀ a : String, (paramFirst params "alpn").getD (.str "") = .str a →
          (a = "" → lookupStr o "alpn" = Option.none) ∧
          (a ≠ "" → lookupStr o "alpn"
            = some (.list ((pySplitAll a ',').map PyVal.str)))) ∧
        (∀ f : String, (paramFirst params "fp").getD (.str "") = .str f →
          (f = "" → lookupStr o "fingerprint" = Option.none) ∧
          (f ≠ "" → lookupStr o "fingerprint" = some (.str f))) ∧
        (pyEqStr sec "tls" = true → lookupStr o "flow" = Option.none) ∧
        (pyEqStr sec "xtls" = true →
          (paramFirst params "flow" = Option.none → lookupStr o "flow" = Option.none) ∧
          (∀ fv, paramFirst params "flow" = some fv →
            (truthy fv = true → lookupStr o "flow" = some fv) ∧
            (truthy fv = false → lookupStr o "flow" = Option.none))) := by
  intro params dh ss sec hb hsec hor
  obtain ⟨net, sec', so, tr, se, hn, hsec', hso, htr, hse, hsseq⟩ := build_inv hb
  have hsec2 : sec = sec' := by
    rw [hsec] at hsec'
    injection hsec'
  subst hsec2
  have hcond : (pyEqStr sec "tls" || pyEqStr sec "xtls") = true := by
    rcases hor with h | h <;> simp [h]
  unfold security_fields at hse
  simp only [hcond, if_true] at hse
  obtain ⟨o, ho, hse2⟩ := except_bind_ok hse
  have hseeq : se = [(pyStrOf sec ++ "Settings", PyVal.dict o)] := by
    simpa [pure, Except.pure] using hse2.symm
  obtain ⟨hsrv, hallow, halp, hfing, hflowF, hflowT⟩ := security_block_props ho
  subst hsseq
  subst hseeq
  refine ⟨o, ?_, hsrv, hallow, halp, hfing, ?_, hflowT⟩
  · rcases hor with htls | hx
    · have hsecv := pyEqStr_true htls
      subst hsecv
      have htrn : lookupStr tr "tlsSettings" = Option.none := by
        rcases transport_fields_shape htr with rfl | ⟨k, v, rfl, hk⟩
        · rfl
        · have hkne : ¬(k = "tlsSettings") := fun he =>
            (mem_transportKeys_props hk).1 (he ▸ (by simp [securityKeys]))
          simp [lookupStr, hkne]
      by_cases hempty : so.isEmpty <;>
        simp [hempty, lookupStr_append, lookupStr, htrn, pyStrOf]
    · have hsecv := pyEqStr_true hx
      subst hsecv
      have htrn : lookupStr tr "xtlsSettings" = Option.none := by
        rcases transport_fields_shape htr with rfl | ⟨k, v, rfl, hk⟩
        · rfl
        · have hkne : ¬(k = "xtlsSettings") := fun he =>
            (mem_transportKeys_props hk).1 (he ▸ (by simp [securityKeys]))
          simp [lookupStr, hkne]
      by_cases hempty : so.isEmpty <;>
        simp [hempty, lookupStr_append, lookupStr, htrn, pyStrOf]
  · intro htls
    apply hflowF
    rw [pyEqStr_true htls]
    rfl

/-- Witness for C6: a `tls` link with an explicit `sni`. -/
theorem tls_xtls_security_block_witness :
    ∃ o : PyDict,
      lookupStr [("network", PyVal.str "tcp"), ("security", PyVal.str "tls"),
          ("tlsSettings", PyVal.dict [("serverName", PyVal.str "s.io"),
            ("allowInsecure", PyVal.bool false)])] "tlsSettings" = some (.dict o) ∧
      lookupStr o "serverName" = some (PyVal.str "s.io") ∧
      lookupStr o "allowInsecure" = some (PyVal.bool false) ∧
      lookupStr o "flow" = Option.none := by
  obtain ⟨o, h1, h2, ⟨b, hb, hbd⟩, _, _, hflow, _⟩ :=
    tls_xtls_security_block
      [("security", PyVal.list [PyVal.str "tls"]), ("sni", PyVal.list [PyVal.str "s.io"])]
      (PyVal.str "h")
      [("network", PyVal.str "tcp"), ("security", PyVal.str "tls"),
       ("tlsSettings", PyVal.dict [("serverName", PyVal.str "s.io"),
         ("allowInsecure", PyVal.bool false)])]
      (PyVal.str "tls") (by rfl) (by rfl) (Or.inl (by rfl))
  refine ⟨o, h1, h2, ?_, hflow (by rfl)⟩
  have hb0 := hbd (by rfl)
  rw [hb0] at hb
  exact hb

end Subxray
